import Mathlib

/-!
Verification of the contour mock-server core: a shallow embedding of the
schema resolver (src/generator/schema-parser.ts), the value generator
(src/generator/faker-adapter.ts), the request-body validator
(src/routes/validator.ts), the route handler (src/routes/generator.ts)
and the state manager (src/state/index.ts), together with theorems about
the behaviour claimed in the specification.

JavaScript values flowing through the system are modelled by the `Json`
inductive; JS `undefined` is modelled by `Option` at the use sites.
External collaborators (faker, the uuid package, Date, Math.random, ajv)
are modelled as explicit oracle parameters threaded in state-passing
style; their documented contracts appear as hypotheses where a claim
needs them.
-/

/-- A JSON/JavaScript value.  JS numbers are modelled as rationals
(the claims under study never exercise float rounding). -/
inductive Json where
  | null : Json
  | bool (b : Bool) : Json
  | num (q : Rat) : Json
  | str (s : String) : Json
  | arr (xs : List Json) : Json
  | obj (fields : List (String × Json)) : Json

namespace Json

/-- Property lookup on a JS object: first binding wins (JS object keys are
unique; association lists model insertion order). -/
def lookupF : List (String × Json) → String → Option Json
  | [], _ => none
  | (k, v) :: rest, key => if k = key then some v else lookupF rest key

/-- `o[key]` on a JS object value; `none` models `undefined`. -/
def get? : Json → String → Option Json
  | obj fields, key => lookupF fields key
  | _, _ => none

/-- JS truthiness. -/
def truthy : Json → Bool
  | null => false
  | bool b => b
  | num q => q ≠ 0
  | str s => s ≠ ""
  | arr _ => true
  | obj _ => true

/-- JS strict equality against a string (`x === s` where `s : string`). -/
def eqStr : Json → String → Bool
  | str t, s => t = s
  | _, _ => false

end Json

/-! ### String helpers (JS string primitives, ASCII as used by the repo) -/

/-- Does the second list start with the first? -/
def startsWithL : List Char → List Char → Bool
  | [], _ => true
  | _ :: _, [] => false
  | p :: ps, c :: cs => p = c && startsWithL ps cs

/-- JS `haystack.includes(needle)`. -/
def includesL (pat : List Char) : List Char → Bool
  | [] => startsWithL pat []
  | c :: cs => startsWithL pat (c :: cs) || includesL pat cs

/-- JS `s.includes(pat)`. -/
def strIncludes (s pat : String) : Bool := includesL pat.data s.data

/-- JS `s.endsWith(pat)`. -/
def strEndsWith (s pat : String) : Bool := startsWithL pat.data.reverse s.data.reverse

/-- JS `s.toLowerCase()` (ASCII; all keys in the heuristics table are ASCII). -/
def lowerStr (s : String) : String := String.mk (s.data.map Char.toLower)

/-- JS `s.trim()`. -/
def jsTrim (s : String) : String :=
  String.mk (((s.data.dropWhile Char.isWhitespace).reverse.dropWhile Char.isWhitespace).reverse)

/-- JS `s.substring(0, q)`: the end index is truncated toward zero and
clamped at 0 (ToIntegerOrInfinity). -/
def jsSubstringTo (s : String) (q : Rat) : String :=
  if q ≤ 0 then "" else String.mk (s.data.take q.floor.toNat)

/-- `Array.from(str).reduce((acc, ch) => acc + ch.charCodeAt(0), 0)` used to
derive the per-endpoint deterministic seed (ASCII code points). -/
def charSum (s : String) : Nat := s.data.foldl (fun a c => a + c.toNat) 0

/-! ### Collection-key normalization (src/state/index.ts lines 14-33)

`path.replace(/\/\{[^}]+\}/g, '')` removes every occurrence of a slash
followed by a braced non-empty parameter name; fuel is the string length,
which suffices since every step consumes at least one character. -/

def stripParamSegs : Nat → List Char → List Char
  | 0, cs => cs
  | _ + 1, [] => []
  | f + 1, '/' :: rest =>
      match rest with
      | '{' :: afterBrace =>
        let inner := afterBrace.takeWhile (fun c => c ≠ '}')
        let remaining := afterBrace.drop inner.length
        if inner ≠ [] && remaining.head? = some '}' then
          stripParamSegs f (remaining.drop 1)
        else
          '/' :: stripParamSegs f rest
      | _ => '/' :: stripParamSegs f rest
  | f + 1, c :: rest => c :: stripParamSegs f rest

/-- `path.replace(/\/\{[^}]+\}/g, '').replace(/\/$/, '') || '/'`. -/
def normalizeKey (path : String) : String :=
  let stripped := String.mk (stripParamSegs path.data.length path.data)
  let s2 := if stripped.data.getLast? = some '/' then String.mk stripped.data.dropLast
            else stripped
  if s2 = "" then "/" else s2

example : normalizeKey "/users/{id}" = "/users" := rfl
example : normalizeKey "/api/v1/users/{id}" = "/api/v1/users" := rfl
example : normalizeKey "/{param}" = "/" := rfl

/-! ### External collaborators: faker, uuid, Date, Math.random

Every random/clock primitive the core calls is a field of `Oracle`,
threaded in state-passing style over an abstract state `σ`.  Distinct
faker string routines are distinguished by `StrKind`. -/

/-- One faker string routine, as dispatched by format handling and the
property-name heuristics table. -/
inductive StrKind where
  | uuid | emailExample | urlGen | domainName | ipv4 | ipv6
  | dateTimeRecent | dateRecent | timeRecent | password12 | byteB64
  | loremWord | loremWords15
  | firstName | lastName | fullName | userName | phoneNumber
  | avatarUrl | imageUrl | city | stateName | country | zipCode
  | streetName | companyName | jobTitle | paragraph | sentence
  | paragraphs2 | colorHuman | currencyCode | ibanGen | streetAddress
  | statusWord
deriving DecidableEq

/-- The external random/clock world: `rand` is `Math.random()`, `fkIntR`
is `faker.number.int({min, max})` (bounds already checked), `fkPickIdx`
draws the index for `faker.helpers.arrayElement` on a collection of the
given size, `uuidV4` is the uuid package's `v4()`, `nowIso` is
`new Date().toISOString()`, `reseed` is `faker.seed(n)`. -/
structure Oracle (σ : Type) where
  rand : σ → Rat × σ
  fkIntR : Rat → Rat → σ → Int × σ
  fkFloat : Rat → Rat → σ → Rat × σ
  fkBool : σ → Bool × σ
  fkPickIdx : Nat → σ → Nat × σ
  fkStr : StrKind → σ → String × σ
  uuidV4 : σ → String × σ
  nowIso : σ → String × σ
  reseed : Nat → σ → σ

/-- Contract of the external faker draws, used as a hypothesis where a
claim depends on it: an int draw with ordered integer-valued bounds
lands in the bounds, and an index draw for a non-empty collection is in
range. -/
structure Oracle.Lawful {σ : Type} (o : Oracle σ) : Prop where
  fkIntR_mem : ∀ (a b : Rat) (s : σ), a.den = 1 → b.den = 1 → a ≤ b →
    a ≤ ((o.fkIntR a b s).1 : Rat) ∧ ((o.fkIntR a b s).1 : Rat) ≤ b
  fkPickIdx_lt : ∀ (n : Nat) (s : σ), 0 < n → (o.fkPickIdx n s).1 < n

/-! ### State manager (src/state/index.ts) -/

/-- A stored item: a JS object's fields in insertion order. -/
abbrev Item := List (String × Json)

/-- The module-level `stores` map; only the single key
`'default'` is ever used, `none` models its absence (fresh process or
after `clear()`). -/
abbrev StoreSt := Option (List (String × List Item))

/-- JS `Map.get`. -/
def lookupKey {α : Type} : List (String × α) → String → Option α
  | [], _ => none
  | (k0, v0) :: rest, k => if k0 = k then some v0 else lookupKey rest k

/-- JS `Map.set`: overwrite in place, else append (insertion order). -/
def setKey {α : Type} : List (String × α) → String → α → List (String × α)
  | [], k, v => [(k, v)]
  | (k0, v0) :: rest, k, v =>
      if k0 = k then (k, v) :: rest else (k0, v0) :: setKey rest k v

/-- JS property assignment `o[k] = v` on an object's field list. -/
def upsertF : List (String × Json) → String → Json → List (String × Json)
  | [], k, v => [(k, v)]
  | (k0, v0) :: rest, k, v =>
      if k0 = k then (k, v) :: rest else (k0, v0) :: upsertF rest k v

/-- Spread one object's fields over another: `{...base, ...extra}`. -/
def upsertAll (base extra : List (String × Json)) : List (String × Json) :=
  extra.foldl (fun acc kv => upsertF acc kv.1 kv.2) base

/-- The fields contributed by `...data` in an object literal (objects
spread their fields, arrays their indexed elements, primitives nothing;
the string-to-chars corner of JS spread is not exercised by typed
callers, which pass `Record<string, unknown>`). -/
def spreadFields : Json → List (String × Json)
  | Json.obj fs => fs
  | Json.arr xs => xs.enum.map (fun iv => (Nat.repr iv.1, iv.2))
  | _ => []

namespace StateManager

/-- `item.id === id` (strict equality against the string `id`). -/
def itemIdIs (it : Item) (id : String) : Bool :=
  match Json.lookupF it "id" with
  | some v => v.eqStr id
  | none => false

/-- `getStore(path)`: normalize the key, create the default store and the
collection entry when missing, and return the collection. -/
def getStore (path : String) (st : StoreSt) : List Item × StoreSt :=
  let key := normalizeKey path
  let inner := st.getD []
  match lookupKey inner key with
  | some items => (items, some inner)
  | none => ([], some (inner ++ [(key, [])]))

/-- `stateManager.getAll(path)`. -/
def getAll (path : String) (st : StoreSt) : List Item × StoreSt :=
  getStore path st

/-- `stateManager.getById(path, id)`. -/
def getById (path id : String) (st : StoreSt) : Option Item × StoreSt :=
  let r := getStore path st
  (r.1.find? (fun it => itemIdIs it id), r.2)

/-- `stateManager.create(path, data)`: `{id: uuidv4(), ...data,
createdAt: new Date().toISOString()}` pushed onto the collection. -/
def create {σ : Type} (o : Oracle σ) (path : String) (data : Json)
    (st : StoreSt) (s : σ) : Item × StoreSt × σ :=
  let key := normalizeKey path
  let r := getStore path st
  let u := (o.uuidV4 s).1
  let s1 := (o.uuidV4 s).2
  let t := (o.nowIso s1).1
  let s2 := (o.nowIso s1).2
  let newItem := upsertAll (upsertAll [("id", Json.str u)] (spreadFields data))
      [("createdAt", Json.str t)]
  (newItem, some (setKey (r.2.getD []) key (r.1 ++ [newItem])), s2)

/-- `stateManager.update(path, id, data)`: found ⇒ `{...old, ...data, id,
updatedAt}` written back in place; absent ⇒ `undefined`. -/
def update {σ : Type} (o : Oracle σ) (path id : String) (data : Json)
    (st : StoreSt) (s : σ) : Option Item × StoreSt × σ :=
  let key := normalizeKey path
  let r := getStore path st
  match r.1.findIdx? (fun it => itemIdIs it id) with
  | none => (none, r.2, s)
  | some i =>
      let t := (o.nowIso s).1
      let s1 := (o.nowIso s).2
      let old := (r.1.get? i).getD []
      let newIt := upsertAll (upsertAll old (spreadFields data))
          [("id", Json.str id), ("updatedAt", Json.str t)]
      (some newIt, some (setKey (r.2.getD []) key (r.1.set i newIt)), s1)

/-- `stateManager.delete(path, id)`: splice out the first match. -/
def deleteItem (path id : String) (st : StoreSt) : Bool × StoreSt :=
  let key := normalizeKey path
  let r := getStore path st
  match r.1.findIdx? (fun it => itemIdIs it id) with
  | none => (false, r.2)
  | some i => (true, some (setKey (r.2.getD []) key (r.1.eraseIdx i)))

/-- `stateManager.seed(path, items)` (normalizes the key itself, no
`getStore`). -/
def seed (path : String) (items : List Item) (st : StoreSt) : StoreSt :=
  let key := normalizeKey path
  some (setKey (st.getD []) key items)

/-- `stateManager.clear()`. -/
def clear : StoreSt := none

/-- `stateManager.stats()`: collection key ↦ item count, in map order. -/
def stats (st : StoreSt) : List (String × Nat) :=
  (st.getD []).map (fun kv => (kv.1, kv.2.length))

end StateManager

/-! ### Schema parser (src/generator/schema-parser.ts)

`resolveSchema` recurses through values fetched from the spec document,
so it is not structurally recursive; it carries explicit fuel and
`none` models divergence (the JS stack overflow on cyclic references).
Thrown JS errors are `Except.error`. -/

/-- Divergence/exception monad for resolution and generation:
`none` = runs forever (out of fuel), `some (.error e)` = JS throw. -/
abbrev RRes (α : Type) := Option (Except String α)

def rbind {α β : Type} (m : RRes α) (f : α → RRes β) : RRes β :=
  match m with
  | none => none
  | some (Except.error e) => some (Except.error e)
  | some (Except.ok a) => f a

/-- Drop the first occurrence of `pat` from `cs` (no-op when absent). -/
def dropFirstOcc (pat : List Char) : List Char → List Char
  | [] => []
  | c :: rest =>
      if startsWithL pat (c :: rest) then (c :: rest).drop pat.length
      else c :: dropFirstOcc pat rest

/-- `ref.replace('#/', '')`: JS string-pattern replace removes only the
first occurrence. -/
def replaceFirstHashSlash (ref : String) : String :=
  String.mk (dropFirstOcc ['#', '/'] ref.data)

/-- JS `s.split(sep)` for a single-character separator. -/
def splitOnCharL (sep : Char) : List Char → List (List Char)
  | [] => [[]]
  | c :: rest =>
      let r := splitOnCharL sep rest
      if c = sep then [] :: r
      else
        match r with
        | [] => [[c]]
        | g :: gs => (c :: g) :: gs

/-- JS `s.split('/')`. -/
def splitSlash (s : String) : List String :=
  (splitOnCharL '/' s.data).map String.mk

/-- Decimal parse of a canonical JS array index. -/
def decNat? (s : String) : Option Nat :=
  if s.data = [] then none
  else
    s.data.foldl
      (fun acc c =>
        match acc with
        | none => none
        | some n => if c.isDigit then some (n * 10 + (c.toNat - 48)) else none)
      (some 0)

/-- `current[part]` for an object or array `current` (arrays are indexed
by canonical decimal strings, as JS array indexing does). -/
def jsIndex : Json → String → Option Json
  | Json.obj fs, p => Json.lookupF fs p
  | Json.arr xs, p =>
      (match decNat? p with
       | some n => if Nat.repr n = p then xs.get? n else none
       | none => none)
  | _, _ => none

/-- The navigation loop of `resolveRef` (lines 15-22): while parts remain,
`current && typeof current === 'object'` must hold (objects and arrays
pass; `null`, primitives and `undefined` throw); a missing key merely
makes `current` undefined.  The loop ends by returning `current`,
undefined included. -/
def resolveRefNav (ref : String) : List String → Option Json → Except String (Option Json)
  | [], cur => Except.ok cur
  | p :: ps, cur =>
      match cur with
      | some (Json.obj fs) => resolveRefNav ref ps (Json.lookupF fs p)
      | some (Json.arr xs) => resolveRefNav ref ps (jsIndex (Json.arr xs) p)
      | _ => Except.error ("Cannot resolve reference: " ++ ref)

/-- The module-level `resolvedCache`; a cached value may be the undefined
returned for a ref whose final segment is missing. -/
abbrev RefCache := List (String × Option Json)

/-- `resolveRef(ref, spec)` with the memo cache threaded through. -/
def resolveRef (ref : String) (specDoc : Json) (cache : RefCache) :
    Except String (Option Json × RefCache) :=
  match lookupKey cache ref with
  | some v => Except.ok (v, cache)
  | none =>
      let parts := splitSlash (replaceFirstHashSlash ref)
      match resolveRefNav ref parts (some specDoc) with
      | Except.error e => Except.error e
      | Except.ok cur => Except.ok (cur, cache ++ [(ref, cur)])

/-- Resolve each property value of `result.properties`, building the
fresh `resolvedProps` object in entry order. -/
def resolvePropsGo (g : Json → RefCache → RRes (Json × RefCache)) :
    List (String × Json) → List (String × Json) → RefCache →
    RRes (List (String × Json) × RefCache)
  | [], acc, rc => some (Except.ok (acc.reverse, rc))
  | (k, v) :: rest, acc, rc =>
      rbind (g v rc) (fun vr => resolvePropsGo g rest ((k, vr.1) :: acc) vr.2)

/-- `xs.map((s) => resolveSchema(s, spec))` with the cache threaded. -/
def resolveListGo (g : Json → RefCache → RRes (Json × RefCache)) :
    List Json → List Json → RefCache → RRes (List Json × RefCache)
  | [], acc, rc => some (Except.ok (acc.reverse, rc))
  | v :: rest, acc, rc =>
      rbind (g v rc) (fun vr => resolveListGo g rest (vr.1 :: acc) vr.2)

/-- `if (result.properties) { ... result.properties = resolvedProps }`. -/
def stepProps (g : Json → RefCache → RRes (Json × RefCache))
    (fs : List (String × Json)) (rc : RefCache) :
    RRes (List (String × Json) × RefCache) :=
  match Json.lookupF fs "properties" with
  | some pv =>
      if pv.truthy then
        rbind (resolvePropsGo g (spreadFields pv) [] rc)
          (fun pr => some (Except.ok (upsertF fs "properties" (Json.obj pr.1), pr.2)))
      else some (Except.ok (fs, rc))
  | none => some (Except.ok (fs, rc))

/-- `if (result.items) { result.items = resolveSchema(result.items, spec) }`. -/
def stepItems (g : Json → RefCache → RRes (Json × RefCache))
    (fs : List (String × Json)) (rc : RefCache) :
    RRes (List (String × Json) × RefCache) :=
  match Json.lookupF fs "items" with
  | some iv =>
      if iv.truthy then
        rbind (g iv rc)
          (fun ir => some (Except.ok (upsertF fs "items" ir.1, ir.2)))
      else some (Except.ok (fs, rc))
  | none => some (Except.ok (fs, rc))

/-- `if (result.allOf) { result.allOf = result.allOf.map(...) }` and the
same for `oneOf`/`anyOf`; a truthy non-array has no `.map` and throws. -/
def stepComb (g : Json → RefCache → RRes (Json × RefCache)) (key : String)
    (fs : List (String × Json)) (rc : RefCache) :
    RRes (List (String × Json) × RefCache) :=
  match Json.lookupF fs key with
  | some (Json.arr xs) =>
      rbind (resolveListGo g xs [] rc)
        (fun lr => some (Except.ok (upsertF fs key (Json.arr lr.1), lr.2)))
  | some v =>
      if v.truthy then some (Except.error "TypeError: map is not a function")
      else some (Except.ok (fs, rc))
  | none => some (Except.ok (fs, rc))

/-- `resolveSchema(schema, spec)` (lines 29-63) with explicit recursion
fuel.  A `$ref` is resolved and recursed into; a ref that navigated to
undefined makes the recursive call dereference undefined (TypeError).
Cache updates on exception paths are dropped by the model; every such
path ends in the handler's catch-all 500 and no claim observes the cache
afterwards. -/
def resolveSchemaF (specDoc : Json) : Nat → Json → RefCache → RRes (Json × RefCache)
  | 0, _, _ => none
  | fuel + 1, schema, rc =>
      let g := resolveSchemaF specDoc fuel
      let nonRef :=
        rbind (stepProps g (spreadFields schema) rc) (fun st1 =>
        rbind (stepItems g st1.1 st1.2) (fun st2 =>
        rbind (stepComb g "allOf" st2.1 st2.2) (fun st3 =>
        rbind (stepComb g "oneOf" st3.1 st3.2) (fun st4 =>
        rbind (stepComb g "anyOf" st4.1 st4.2) (fun st5 =>
        some (Except.ok (Json.obj st5.1, st5.2)))))))
      match Json.get? schema "$ref" with
      | some rv =>
          if rv.truthy then
            match rv with
            | Json.str r =>
                match resolveRef r specDoc rc with
                | Except.error e => some (Except.error e)
                | Except.ok (none, _) =>
                    some (Except.error "TypeError: Cannot read properties of undefined")
                | Except.ok (some j, rc1) => resolveSchemaF specDoc fuel j rc1
            | _ => some (Except.error "TypeError: replace is not a function")
          else nonRef
      | none => nonRef

example : replaceFirstHashSlash "#/components/schemas/User" = "components/schemas/User" := rfl
example : splitSlash "components/schemas/User" = ["components", "schemas", "User"] := rfl
example : Nat.repr 3 = "3" := rfl

/-! ### Value generator (src/generator/faker-adapter.ts)

`generateFromSchema` with explicit recursion fuel; every recursive call
is on a strict subterm of the (finite) schema tree, and
`generateFromSchema_fuel_sufficient` below shows fuel equal to the
schema's size never runs out.  Randomness is drawn from the `Oracle`. -/

/-- `schema.k` when it is a string. -/
def strFieldF (j : Json) (k : String) : Option String :=
  match Json.get? j k with
  | some (Json.str t) => some t
  | _ => none

/-- `schema.k` when it is a number (the TS `Schema` type declares the
bound fields as `number`). -/
def ratFieldF (j : Json) (k : String) : Option Rat :=
  match Json.get? j k with
  | some (Json.num q) => some q
  | _ => none

/-- Generation context (`GenerationContext`). -/
structure Ctx where
  path : List String
  depth : Nat
  index : Option Nat := none
  propertyName : String := ""

/-- The fixed `format` table of `generateString` (lines 85-113); `binary`
maps to the same `faker.lorem.word()` routine as the generic word. -/
def formatKind : String → Option StrKind
  | "uuid" => some StrKind.uuid
  | "email" => some StrKind.emailExample
  | "uri" => some StrKind.urlGen
  | "url" => some StrKind.urlGen
  | "hostname" => some StrKind.domainName
  | "ipv4" => some StrKind.ipv4
  | "ipv6" => some StrKind.ipv6
  | "date-time" => some StrKind.dateTimeRecent
  | "date" => some StrKind.dateRecent
  | "time" => some StrKind.timeRecent
  | "password" => some StrKind.password12
  | "byte" => some StrKind.byteB64
  | "binary" => some StrKind.loremWord
  | _ => none

/-- The exact-match part of `getHeuristicForProperty` (lines 143-182);
the `status` entry draws from the fixed three-element list and is
modelled as the single draw `statusWord`. -/
def exactHeurMap : List (String × StrKind) :=
  [("firstname", StrKind.firstName), ("first_name", StrKind.firstName),
   ("lastname", StrKind.lastName), ("last_name", StrKind.lastName),
   ("fullname", StrKind.fullName), ("full_name", StrKind.fullName),
   ("username", StrKind.userName),
   ("email", StrKind.emailExample),
   ("phone", StrKind.phoneNumber), ("phonenumber", StrKind.phoneNumber),
   ("phone_number", StrKind.phoneNumber),
   ("avatar", StrKind.avatarUrl),
   ("image", StrKind.imageUrl), ("photo", StrKind.imageUrl),
   ("picture", StrKind.imageUrl),
   ("city", StrKind.city), ("state", StrKind.stateName),
   ("country", StrKind.country),
   ("zipcode", StrKind.zipCode), ("zip_code", StrKind.zipCode),
   ("zip", StrKind.zipCode),
   ("street", StrKind.streetName),
   ("company", StrKind.companyName), ("companyname", StrKind.companyName),
   ("company_name", StrKind.companyName),
   ("title", StrKind.jobTitle), ("jobtitle", StrKind.jobTitle),
   ("job_title", StrKind.jobTitle),
   ("bio", StrKind.paragraph), ("description", StrKind.paragraph),
   ("summary", StrKind.sentence), ("content", StrKind.paragraphs2),
   ("website", StrKind.urlGen), ("url", StrKind.urlGen),
   ("color", StrKind.colorHuman), ("currency", StrKind.currencyCode),
   ("iban", StrKind.ibanGen),
   ("status", StrKind.statusWord)]

/-- `getHeuristicForProperty(key)`: exact table first, then the
partial/suffix rules (lines 184-199). -/
def getHeuristicForProperty (key : String) : Option StrKind :=
  match lookupKey exactHeurMap key with
  | some k => some k
  | none =>
      if key = "name" || strEndsWith key "name" || strEndsWith key "_name" then
        some StrKind.fullName
      else if strIncludes key "phone" then some StrKind.phoneNumber
      else if strIncludes key "email" then some StrKind.emailExample
      else if strIncludes key "address" || strIncludes key "street" then
        some StrKind.streetAddress
      else if strIncludes key "city" then some StrKind.city
      else if strIncludes key "country" then some StrKind.country
      else if strIncludes key "avatar" || strIncludes key "image" || strIncludes key "photo" then
        some StrKind.imageUrl
      else if strIncludes key "url" || strIncludes key "website" || strIncludes key "link" then
        some StrKind.urlGen
      else if strIncludes key "description" || strIncludes key "bio" || strIncludes key "about" then
        some StrKind.paragraph
      else if strIncludes key "title" then some StrKind.jobTitle
      else if strIncludes key "company" then some StrKind.companyName
      else none

/-- The `while (value.length < minLength)` padding loop of
`generateString`.  Each iteration appends at least one character, so the
fuel passed at the call site (`minLength` rounded up, plus one) makes
the bounded loop agree with the unbounded JS loop. -/
def padLoop {σ : Type} (o : Oracle σ) (minL : Rat) : Nat → String → σ → String × σ
  | 0, v, s => (v, s)
  | f + 1, v, s =>
      if (v.length : Rat) < minL then
        let w := (o.fkStr StrKind.loremWord s).1
        let s1 := (o.fkStr StrKind.loremWord s).2
        padLoop o minL f (v ++ " " ++ w) s1
      else (v, s)

/-- `generateString(schema, propertyName)` (lines 83-139). -/
def generateString {σ : Type} (o : Oracle σ) (schema : Json)
    (propertyName : String) (s : σ) : String × σ :=
  match (match strFieldF schema "format" with
         | some f => formatKind f
         | none => none) with
  | some k => o.fkStr k s
  | none =>
      if (Json.get? schema "pattern").any Json.truthy then o.fkStr StrKind.loremWord s
      else
        match getHeuristicForProperty (lowerStr propertyName) with
        | some k => o.fkStr k s
        | none =>
            let minL := (ratFieldF schema "minLength").getD 1
            let maxL := (ratFieldF schema "maxLength").getD 50
            let w := (o.fkStr StrKind.loremWords15 s).1
            let s1 := (o.fkStr StrKind.loremWords15 s).2
            let v1 := if (w.length : Rat) > maxL then jsSubstringTo w maxL else w
            let pr := padLoop o minL (minL.ceil.toNat + 1) v1 s1
            (jsTrim pr.1, pr.2)

/-- `generateNumber(schema)` (lines 202-211); `faker.number.int/float`
throw when `max < min`. -/
def generateNumber {σ : Type} (o : Oracle σ) (schema : Json) (s : σ) :
    RRes (Json × σ) :=
  let lo := (ratFieldF schema "minimum").getD 0
  let hi := (ratFieldF schema "maximum").getD 1000
  if hi < lo then some (Except.error "FakerError: Max should be greater than min")
  else if strFieldF schema "type" = some "integer" then
    let r := o.fkIntR lo hi s
    some (Except.ok (Json.num (r.1 : Rat), r.2))
  else
    let r := o.fkFloat lo hi s
    some (Except.ok (Json.num r.1, r.2))

/-- `faker.helpers.arrayElement(xs)`: throws on an empty collection,
otherwise returns the element at a drawn index. -/
def jsPick {σ α : Type} (o : Oracle σ) (xs : List α) (s : σ) :
    Except String (α × σ) :=
  match xs with
  | [] => Except.error "FakerError: Cannot get a random element from an empty dataset"
  | x :: rest =>
      let r := o.fkPickIdx (x :: rest).length s
      Except.ok ((x :: rest).getD r.1 x, r.2)

/-- The derived context for array element `i`
(`{...context, path: [...context.path, String(i)], index: i}`): the
depth is untouched, the path is extended by the element index. -/
def arrayElemCtx (ctx : Ctx) (i : Nat) : Ctx :=
  { ctx with path := ctx.path ++ [Nat.repr i], index := some i }

/-- The element loop of `generateArray`. -/
def genRepeat {σ : Type} (g : Json → Ctx → σ → RRes (Json × σ)) (item : Json)
    (ctx : Ctx) : Nat → Nat → List Json → σ → RRes (List Json × σ)
  | 0, _, acc, s => some (Except.ok (acc.reverse, s))
  | n + 1, i, acc, s =>
      rbind (g item (arrayElemCtx ctx i) s)
        (fun vr => genRepeat g item ctx n (i + 1) (vr.1 :: acc) vr.2)

/-- `generateArray(schema, context)` (lines 213-234): the element count
is drawn from `[minItems ?? 1, min(maxItems ?? 5, 100)]` before the
`items` check; without an `items` schema the empty array is returned. -/
def generateArray {σ : Type} (o : Oracle σ)
    (g : Json → Ctx → σ → RRes (Json × σ)) (schema : Json) (ctx : Ctx)
    (s : σ) : RRes (Json × σ) :=
  let minI := (ratFieldF schema "minItems").getD 1
  let maxI := min ((ratFieldF schema "maxItems").getD 5) 100
  if maxI < minI then some (Except.error "FakerError: Max should be greater than min")
  else
    let cr := o.fkIntR minI maxI s
    match Json.get? schema "items" with
    | some iv =>
        if iv.truthy then
          rbind (genRepeat g iv ctx cr.1.toNat 0 [] cr.2)
            (fun lr => some (Except.ok (Json.arr lr.1, lr.2)))
        else some (Except.ok (Json.arr [], cr.2))
    | none => some (Except.ok (Json.arr [], cr.2))

/-- `schema.required?.includes(key)`: membership in the declared
`required` array (string entries; `required` is typed `string[]`). -/
def requiredList (schema : Json) : List String :=
  match Json.get? schema "required" with
  | some (Json.arr xs) =>
      xs.filterMap (fun v => match v with | Json.str t => some t | _ => none)
  | _ => []

/-- The property loop of `generateObject`: a property is generated when
required, else with probability `Math.random() > 0.2` (the draw is
short-circuited away for required properties); children descend with
`depth + 1`, the path extended by, and `propertyName` set to, the key. -/
def genProps {σ : Type} (o : Oracle σ) (g : Json → Ctx → σ → RRes (Json × σ))
    (required : List String) (ctx : Ctx) :
    List (String × Json) → List (String × Json) → σ → RRes (List (String × Json) × σ)
  | [], acc, s => some (Except.ok (acc.reverse, s))
  | (k, ps) :: rest, acc, s =>
      let dr : Bool × σ :=
        if required.contains k then (true, s)
        else
          (let r := o.rand s
           (decide ((2 : Rat)/10 < r.1), r.2))
      if dr.1 then
        rbind (g ps { ctx with path := ctx.path ++ [k], depth := ctx.depth + 1,
                               propertyName := k } dr.2)
          (fun vr => genProps o g required ctx rest ((k, vr.1) :: acc) vr.2)
      else genProps o g required ctx rest acc dr.2

/-- `generateObject(schema, context)` (lines 236-265): past depth
`MAX_OBJECT_DEPTH = 10` it short-circuits to a single-field object with
a fresh uuid and does not recurse. -/
def generateObject {σ : Type} (o : Oracle σ)
    (g : Json → Ctx → σ → RRes (Json × σ)) (schema : Json) (ctx : Ctx)
    (s : σ) : RRes (Json × σ) :=
  if ctx.depth > 10 then
    let r := o.fkStr StrKind.uuid s
    some (Except.ok (Json.obj [("id", Json.str r.1)], r.2))
  else
    match Json.get? schema "properties" with
    | some pv =>
        if pv.truthy then
          rbind (genProps o g (requiredList schema) ctx (spreadFields pv) [] s)
            (fun pr => some (Except.ok (Json.obj pr.1, pr.2)))
        else some (Except.ok (Json.obj [], s))
    | none => some (Except.ok (Json.obj [], s))

/-- The `allOf` loop (lines 42-49): generate every sub-schema, shallow
merging each plain-object result (`{...merged, ...result}`). -/
def genAllOf {σ : Type} (o : Oracle σ) (g : Json → Ctx → σ → RRes (Json × σ))
    (ctx : Ctx) : List Json → List (String × Json) → σ → RRes (List (String × Json) × σ)
  | [], merged, s => some (Except.ok (merged, s))
  | sub :: rest, merged, s =>
      rbind (g sub ctx s) (fun vr =>
        let merged' :=
          match vr.1 with
          | Json.obj fs => upsertAll merged fs
          | _ => merged
        genAllOf o g ctx rest merged' vr.2)

/-- The `switch (schema.type)` dispatch of `generateFromSchema`
(lines 65-80); unknown or missing types fall back to a generic word. -/
def stageType {σ : Type} (o : Oracle σ) (g : Json → Ctx → σ → RRes (Json × σ))
    (schema : Json) (ctx : Ctx) (s : σ) : RRes (Json × σ) :=
  match strFieldF schema "type" with
  | some "string" =>
      let r := generateString o schema ctx.propertyName s
      some (Except.ok (Json.str r.1, r.2))
  | some "number" => generateNumber o schema s
  | some "integer" => generateNumber o schema s
  | some "boolean" =>
      let r := o.fkBool s
      some (Except.ok (Json.bool r.1, r.2))
  | some "array" => generateArray o g schema ctx s
  | some "object" => generateObject o g schema ctx s
  | _ =>
      let r := o.fkStr StrKind.loremWord s
      some (Except.ok (Json.str r.1, r.2))

/-- `if (schema.anyOf) return generate(arrayElement(schema.anyOf))`. -/
def stageAnyOf {σ : Type} (o : Oracle σ) (g : Json → Ctx → σ → RRes (Json × σ))
    (schema : Json) (ctx : Ctx) (s : σ) : RRes (Json × σ) :=
  match Json.get? schema "anyOf" with
  | some (Json.arr subs) =>
      (match jsPick o subs s with
       | Except.error e => some (Except.error e)
       | Except.ok (pick, s1) => g pick ctx s1)
  | some v => if v.truthy then some (Except.error "FakerError") else stageType o g schema ctx s
  | none => stageType o g schema ctx s

/-- `if (schema.oneOf) return generate(arrayElement(schema.oneOf))`. -/
def stageOneOf {σ : Type} (o : Oracle σ) (g : Json → Ctx → σ → RRes (Json × σ))
    (schema : Json) (ctx : Ctx) (s : σ) : RRes (Json × σ) :=
  match Json.get? schema "oneOf" with
  | some (Json.arr subs) =>
      (match jsPick o subs s with
       | Except.error e => some (Except.error e)
       | Except.ok (pick, s1) => g pick ctx s1)
  | some v => if v.truthy then some (Except.error "FakerError") else stageAnyOf o g schema ctx s
  | none => stageAnyOf o g schema ctx s

/-- The `allOf` branch: merge all object results; an empty merge falls
back to regenerating the first sub-schema (none for an empty list:
dereferencing `allOf[0]` throws). -/
def stageAllOf {σ : Type} (o : Oracle σ) (g : Json → Ctx → σ → RRes (Json × σ))
    (schema : Json) (ctx : Ctx) (s : σ) : RRes (Json × σ) :=
  match Json.get? schema "allOf" with
  | some (Json.arr subs) =>
      rbind (genAllOf o g ctx subs [] s) (fun mr =>
        if mr.1.length > 0 then some (Except.ok (Json.obj mr.1, mr.2))
        else
          match subs with
          | [] => some (Except.error "TypeError: Cannot read properties of undefined")
          | s0 :: _ => g s0 ctx mr.2)
  | some v => if v.truthy then some (Except.error "TypeError: not iterable") else stageOneOf o g schema ctx s
  | none => stageOneOf o g schema ctx s

/-- `if (schema.enum && schema.enum.length > 0) return arrayElement(enum)`. -/
def stageEnum {σ : Type} (o : Oracle σ) (g : Json → Ctx → σ → RRes (Json × σ))
    (schema : Json) (ctx : Ctx) (s : σ) : RRes (Json × σ) :=
  match Json.get? schema "enum" with
  | some (Json.arr (x :: xs)) =>
      (match jsPick o (x :: xs) s with
       | Except.error e => some (Except.error e)
       | Except.ok (pick, s1) => some (Except.ok (pick, s1)))
  | _ => stageAllOf o g schema ctx s

/-- `if (schema.nullable && Math.random() < 0.1) return null` (the draw
happens only when `nullable` is truthy). -/
def stageNullable {σ : Type} (o : Oracle σ) (g : Json → Ctx → σ → RRes (Json × σ))
    (schema : Json) (ctx : Ctx) (s : σ) : RRes (Json × σ) :=
  match Json.get? schema "nullable" with
  | some nv =>
      if nv.truthy then
        let r := o.rand s
        if r.1 < (1 : Rat)/10 then some (Except.ok (Json.null, r.2))
        else stageEnum o g schema ctx r.2
      else stageEnum o g schema ctx s
  | none => stageEnum o g schema ctx s

def genStep {σ : Type} (o : Oracle σ) (g : Json → Ctx → σ → RRes (Json × σ))
    (schema : Json) (ctx : Ctx) (s : σ) : RRes (Json × σ) :=
  match Json.get? schema "example" with
  | some ex => some (Except.ok (ex, s))
  | none =>
      match Json.get? schema "$ref" with
      | some rv =>
          if rv.truthy then some (Except.ok (Json.obj [("$ref", rv)], s))
          else stageNullable o g schema ctx s
      | none => stageNullable o g schema ctx s

/-- `generateFromSchema(schema, context)` (lines 18-81), fuel-bounded:
one `genStep` per fuel unit.  Dispatch order inside a step: `example`
verbatim, `$ref` echoed (resolution happens upstream), `nullable` coin
flip, `enum` pick, `allOf` merge, `oneOf`/`anyOf` pick, then the `type`
switch. -/
def generateFromSchema {σ : Type} (o : Oracle σ) : Nat → Json → Ctx → σ → RRes (Json × σ)
  | 0, _, _, _ => none
  | fuel + 1, schema, ctx, s =>
      genStep o (fun j c t => generateFromSchema o fuel j c t) schema ctx s

/-- `generateData(schema, context)` (src/generator/index.ts lines 25-32):
resolve against the current spec, then generate.  On an exception the σ
and cache at throw time are not tracked (the handler converts every
throw into a 500 and no claim observes the random state afterwards). -/
def generateData {σ : Type} (o : Oracle σ) (fuel : Nat) (schema specDoc : Json)
    (rc : RefCache) (ctx : Option Ctx) (s : σ) : RRes (Json × RefCache × σ) :=
  rbind (resolveSchemaF specDoc fuel schema rc) (fun rr =>
    rbind (generateFromSchema o fuel rr.1 (ctx.getD { path := [], depth := 0 }) s)
      (fun gr => some (Except.ok (gr.1, rr.2, gr.2))))

/-! ### Request-body validator (src/routes/validator.ts)

ajv is an external collaborator: `AjvModel.compile` is
`ajv.compile(cleanSchema)`, `none` modelling a compilation throw; a
compiled validator returns the `validate(body)` boolean together with
`validate.errors` (`none` = JS null).  One raw ajv error carries
`instancePath` and `message` (empty string models a falsy field). -/

structure AjvModel where
  compile : Json → Option (Json → Bool × Option (List (String × String)))

/-- `typeof value === 'object' && value !== null` (arrays included). -/
def isObjNonNull : Json → Bool
  | Json.obj _ => true
  | Json.arr _ => true
  | _ => false

/-- Clean each property value (`cleanForValidation` lines 74-79). -/
def cleanPropsGo (c : Json → Option Json) :
    List (String × Json) → List (String × Json) → Option (List (String × Json))
  | [], acc => some acc.reverse
  | (k, v) :: rest, acc =>
      match c v with
      | none => none
      | some cv => cleanPropsGo c rest ((k, cv) :: acc)

/-- The entry loop of `cleanForValidation` (lines 68-88): drop
`example`/`examples`/`nullable`, recurse into `properties` and `items`,
copy everything else. -/
def cleanEntsGo (c : Json → Option Json) :
    List (String × Json) → List (String × Json) → Option (List (String × Json))
  | [], acc => some acc.reverse
  | (k, v) :: rest, acc =>
      if k = "example" ∨ k = "examples" ∨ k = "nullable" then cleanEntsGo c rest acc
      else if k = "properties" ∧ isObjNonNull v then
        match cleanPropsGo c (spreadFields v) [] with
        | none => none
        | some cps => cleanEntsGo c rest ((k, Json.obj cps) :: acc)
      else if k = "items" ∧ isObjNonNull v then
        match c v with
        | none => none
        | some cv => cleanEntsGo c rest ((k, cv) :: acc)
      else cleanEntsGo c rest ((k, v) :: acc)

/-- `cleanForValidation(schema)`, fuel-bounded (the schema is a finite
tree, so fuel equal to its size suffices). -/
def cleanF : Nat → Json → Option Json
  | 0, _ => none
  | f + 1, schema => (cleanEntsGo (cleanF f) (spreadFields schema) []).map Json.obj

/-- The `ValidationResult` shape returned by `validateRequestBody`. -/
structure ValidationResult where
  valid : Bool
  errors : Option (List (String × String)) := none

/-- A route operation as consumed by the handler: the response map, the
request body's `content['application/json'].schema` (outer `none` = no
`requestBody`, inner `none` = no truthy json schema), and the contour
vendor extensions.  `xDelay` only affects response timing, never the
payload, and is carried for completeness. -/
structure ResponseObj where
  jsonSchema : Option Json

structure Operation where
  responses : List (String × ResponseObj)
  requestBodyJsonSchema : Option (Option Json) := none
  xCount : Option Rat := none
  xDelay : Option Rat := none
  xDet : Bool := false

/-- `validateRequestBody(body, operation, spec)` (lines 25-66).  The
`$ref` resolution happens outside the try/catch, so its exceptions
propagate; an ajv compilation throw is caught and the request allowed
through; `!valid && validate.errors` guards the failure result (a null
`errors` also allows through); raw errors are mapped to
`{field: instancePath || '/', message: message || 'Validation error'}`. -/
def validateRequestBody (ajv : AjvModel) (fuel : Nat) (body : Json)
    (op : Operation) (specDoc : Json) (rc : RefCache) :
    RRes (ValidationResult × RefCache) :=
  match op.requestBodyJsonSchema with
  | none => some (Except.ok ({ valid := true }, rc))
  | some none => some (Except.ok ({ valid := true }, rc))
  | some (some sch) =>
      rbind (resolveSchemaF specDoc fuel sch rc) (fun rr =>
        match cleanF fuel rr.1 with
        | none => none
        | some clean =>
            match ajv.compile clean with
            | none => some (Except.ok ({ valid := true }, rr.2))
            | some vfun =>
                let r := vfun body
                match r.1, r.2 with
                | false, some l =>
                    some (Except.ok
                      ({ valid := false,
                         errors := some (l.map (fun e =>
                           (if e.1 = "" then "/" else e.1,
                            if e.2 = "" then "Validation error" else e.2))) }, rr.2))
                | _, _ => some (Except.ok ({ valid := true }, rr.2)))

/-! ### Route handler (src/routes/generator.ts createHandler) -/

inductive Method where
  | get | post | put | patch | delete
deriving DecidableEq

def methodStr : Method → String
  | Method.get => "get"
  | Method.post => "post"
  | Method.put => "put"
  | Method.patch => "patch"
  | Method.delete => "delete"

structure MockConfig where
  stateful : Bool

/-- The request as seen by the handler: Express path parameters in path
order, and the parsed JSON body. -/
structure Req where
  params : List (String × String)
  body : Json

/-- The observable outcome of one handler invocation. -/
structure HandlerOut (σ : Type) where
  status : Nat
  body : Option Json
  store : StoreSt
  cache : RefCache
  rng : σ

/-- `const successCode = method === 'post' ? '201' : '200'` (line 75). -/
def successCode (m : Method) : String :=
  if m = Method.post then "201" else "200"

/-- `operation.responses[successCode] || operation.responses['200'] ||
operation.responses['default']` (line 76). -/
def pickResponse (m : Method) (rs : List (String × ResponseObj)) : Option ResponseObj :=
  match lookupKey rs (successCode m) with
  | some r => some r
  | none =>
      match lookupKey rs "200" with
      | some r => some r
      | none => lookupKey rs "default"

/-- `Object.keys(req.params).find(k => k.toLowerCase().includes('id'))
|| Object.keys(req.params).pop()` (lines 106, 144, 156). -/
def idParamOf (params : List (String × String)) : Option String :=
  match params.find? (fun kv => strIncludes (lowerStr kv.1) "id") with
  | some kv => some kv.1
  | none => (params.map (fun kv => kv.1)).getLast?

/-- `const id = idParam ? req.params[idParam] : null`. -/
def idValueOf (params : List (String × String)) : Option String :=
  match idParamOf params with
  | some k => lookupKey params k
  | none => none

/-- The path-parameter injection loop of the stateless branch
(lines 195-201): for every parameter whose NAME is `id` or ends in `Id`,
assign its value to the object's `id` property. -/
def injectParams (params : List (String × String))
    (fields : List (String × Json)) : List (String × Json) :=
  params.foldl
    (fun acc kv =>
      if kv.1 = "id" || strEndsWith kv.1 "Id" then upsertF acc "id" (Json.str kv.2)
      else acc)
    fields

def err500Json : Json :=
  Json.obj [("error", Json.str "Internal Server Error"),
            ("message", Json.str "Failed to generate mock response")]

def notFoundJson : Json := Json.obj [("error", Json.str "Not Found")]

def validationFailedJson (errs : List (String × String)) : Json :=
  Json.obj [("error", Json.str "Validation failed"),
            ("details", Json.arr (errs.map (fun e =>
              Json.obj [("field", Json.str e.1), ("message", Json.str e.2)])))]

/-- `req.body && Object.keys(req.body).length > 0` (line 88). -/
def hasBodyContent (b : Json) : Bool :=
  b.truthy &&
    (match b with
     | Json.obj fs => fs.length > 0
     | Json.arr xs => xs.length > 0
     | _ => false)

def mk500 {σ : Type} (st : StoreSt) (rc : RefCache) (s : σ) : HandlerOut σ :=
  { status := 500, body := some err500Json, store := st, cache := rc, rng := s }

/-- Outcome of the stateful block (lines 99-165): a response, a
fall-through into the stateless part (which leaves all state untouched),
divergence, or a thrown exception (with the store as already mutated). -/
inductive SfOut (σ : Type) where
  | respond (out : HandlerOut σ) : SfOut σ
  | fallthrough : SfOut σ
  | diverge : SfOut σ
  | threw (st : StoreSt) (rc : RefCache) (rng : σ) : SfOut σ

/-- `seeded = generated.map(item => ({id: faker.string.uuid(), ...item}))`
(lines 124-127): one uuid draw per item, the item's own fields spread
after the fresh id. -/
def seedIds {σ : Type} (o : Oracle σ) : List Json → List Item → σ → List Item × σ
  | [], acc, s => (acc.reverse, s)
  | x :: rest, acc, s =>
      let r := o.fkStr StrKind.uuid s
      seedIds o rest ((upsertAll [("id", Json.str r.1)] (spreadFields x)) :: acc) r.2

/-- The stateful block. -/
def statefulStep {σ : Type} (o : Oracle σ) (fuel : Nat) (specDoc : Json)
    (path : String) (m : Method) (schemaOpt : Option Json) (req : Req)
    (st : StoreSt) (rc : RefCache) (s : σ) : SfOut σ :=
  let hasParams := strIncludes path "\x7b"
  if m = Method.get then
    if hasParams then
      match idValueOf req.params with
      | some idv =>
          if idv ≠ "" then
            let r := StateManager.getById path idv st
            match r.1 with
            | some item =>
                SfOut.respond { status := 200, body := some (Json.obj item),
                                store := r.2, cache := rc, rng := s }
            | none =>
                SfOut.respond { status := 404, body := some notFoundJson,
                                store := r.2, cache := rc, rng := s }
          else SfOut.fallthrough
      | none => SfOut.fallthrough
    else
      let r := StateManager.getAll path st
      match r.1, schemaOpt with
      | [], some sch =>
          (match generateData o fuel sch specDoc rc none s with
           | none => SfOut.diverge
           | some (Except.error _) => SfOut.threw r.2 rc s
           | some (Except.ok (genv, rc2, s2)) =>
               match genv with
               | Json.arr xs =>
                   let sr := seedIds o xs [] s2
                   SfOut.respond
                     { status := 200,
                       body := some (Json.arr (sr.1.map Json.obj)),
                       store := StateManager.seed path sr.1 r.2,
                       cache := rc2, rng := sr.2 }
               | _ =>
                   SfOut.respond { status := 200, body := some (Json.arr []),
                                   store := r.2, cache := rc2, rng := s2 })
      | items, _ =>
          SfOut.respond { status := 200,
                          body := some (Json.arr (items.map Json.obj)),
                          store := r.2, cache := rc, rng := s }
  else if m = Method.post then
    let c := StateManager.create o path req.body st s
    SfOut.respond { status := 201, body := some (Json.obj c.1),
                    store := c.2.1, cache := rc, rng := c.2.2 }
  else if m = Method.put ∨ m = Method.patch then
    match idValueOf req.params with
    | some idv =>
        if idv ≠ "" then
          let u := StateManager.update o path idv req.body st s
          match u.1 with
          | some it =>
              SfOut.respond { status := 200, body := some (Json.obj it),
                              store := u.2.1, cache := rc, rng := u.2.2 }
          | none =>
              SfOut.respond { status := 404, body := some notFoundJson,
                              store := u.2.1, cache := rc, rng := u.2.2 }
        else SfOut.fallthrough
    | none => SfOut.fallthrough
  else
    match idValueOf req.params with
    | some idv =>
        if idv ≠ "" then
          let d := StateManager.deleteItem path idv st
          if d.1 then
            SfOut.respond { status := 204, body := none, store := d.2,
                            cache := rc, rng := s }
          else
            SfOut.respond { status := 404, body := some notFoundJson,
                            store := d.2, cache := rc, rng := s }
        else SfOut.fallthrough
    | none => SfOut.fallthrough

/-- `schema.items ?? schema` (line 189). -/
def padSchemaOf (sch : Json) : Json :=
  match Json.get? sch "items" with
  | some Json.null => sch
  | some v => v
  | none => sch

/-- `data.slice(0, targetCount)`. -/
def jsSlice0 (xs : List Json) (q : Rat) : List Json :=
  if 0 ≤ q then xs.take q.floor.toNat
  else xs.take (max 0 ((xs.length : Int) + q.ceil)).toNat

/-- The `while (data.length < targetCount) data.push(generateData(...))`
loop of the count override (lines 188-190); each iteration appends one
element, so the fuel passed at the call site makes it agree with the
unbounded JS loop. -/
def padCountGo {σ : Type} (o : Oracle σ) (fuel : Nat) (specDoc padSchema : Json)
    (target : Rat) : Nat → List Json → RefCache → σ → RRes (List Json × RefCache × σ)
  | 0, acc, rc, s => some (Except.ok (acc, rc, s))
  | pf + 1, acc, rc, s =>
      if (acc.length : Rat) < target then
        rbind (generateData o fuel padSchema specDoc rc none s) (fun gr =>
          padCountGo o fuel specDoc padSchema target pf (acc ++ [gr.1]) gr.2.1 gr.2.2)
      else some (Except.ok (acc, rc, s))

/-- The stateless branch (lines 167-214): fresh generation, count
override, path-parameter injection, body merge for write methods. -/
def statelessStep {σ : Type} (o : Oracle σ) (fuel : Nat) (specDoc : Json)
    (m : Method) (op : Operation) (schemaOpt : Option Json) (req : Req)
    (st : StoreSt) (rc : RefCache) (s : σ) : Option (HandlerOut σ) :=
  match schemaOpt with
  | none =>
      if m = Method.delete then
        some { status := 204, body := none, store := st, cache := rc, rng := s }
      else
        some { status := 200, body := some (Json.obj []), store := st,
               cache := rc, rng := s }
  | some sch =>
      match generateData o fuel sch specDoc rc none s with
      | none => none
      | some (Except.error _) => some (mk500 st rc s)
      | some (Except.ok (data0, rc1, s1)) =>
          let afterCount : RRes (Json × RefCache × σ) :=
            match data0, op.xCount with
            | Json.arr xs, some c =>
                if c ≠ 0 then
                  rbind (padCountGo o fuel specDoc (padSchemaOf sch) c
                           ((Rat.ceil c).toNat + 1) xs rc1 s1)
                    (fun pr => some (Except.ok (Json.arr (jsSlice0 pr.1 c), pr.2.1, pr.2.2)))
                else some (Except.ok (Json.arr xs, rc1, s1))
            | d, _ => some (Except.ok (d, rc1, s1))
          match afterCount with
          | none => none
          | some (Except.error _) => some (mk500 st rc s)
          | some (Except.ok (data1, rc2, s2)) =>
              let data2 :=
                match data1 with
                | Json.obj fs => Json.obj (injectParams req.params fs)
                | d => d
              if m = Method.post ∧ req.body.truthy then
                match data2 with
                | Json.obj fs =>
                    some { status := 201,
                           body := some (Json.obj (upsertAll fs (spreadFields req.body))),
                           store := st, cache := rc2, rng := s2 }
                | Json.null => some (mk500 st rc2 s2)
                | d => some { status := 200, body := some d, store := st,
                              cache := rc2, rng := s2 }
              else if (m = Method.put ∨ m = Method.patch) ∧ req.body.truthy then
                match data2 with
                | Json.obj fs =>
                    some { status := 200,
                           body := some (Json.obj (upsertAll fs (spreadFields req.body))),
                           store := st, cache := rc2, rng := s2 }
                | Json.null => some (mk500 st rc2 s2)
                | d => some { status := 200, body := some d, store := st,
                              cache := rc2, rng := s2 }
              else
                some { status := 200, body := some data2, store := st,
                       cache := rc2, rng := s2 }

/-- `content?.schema ? resolveSchema(content.schema, spec) : null`
(lines 82-85). -/
def resolveRespSchema (fuel : Nat) (specDoc : Json) (resp : ResponseObj)
    (rc : RefCache) : RRes (Option Json × RefCache) :=
  match resp.jsonSchema with
  | some schv =>
      if schv.truthy then
        rbind (resolveSchemaF specDoc fuel schv rc)
          (fun rr => some (Except.ok (some rr.1, rr.2)))
      else some (Except.ok (none, rc))
  | none => some (Except.ok (none, rc))

/-- One invocation of the handler built by `createHandler(spec, path,
method, operation, config)` (lines 59-223): deterministic reseed, the
response lookup with its 204 short-circuit, response-schema resolution,
request-body validation with its 400 exit, then the stateful block
falling through to the stateless branch.  Any JS throw is caught at the
handler boundary and becomes a 500 (lines 215-221); `none` models
divergence. -/
def handle {σ : Type} (o : Oracle σ) (ajv : AjvModel) (fuel : Nat)
    (specDoc : Json) (path : String) (m : Method) (op : Operation)
    (cfg : MockConfig) (req : Req) (st : StoreSt) (rc : RefCache) (s : σ) :
    Option (HandlerOut σ) :=
  let s0 := if op.xDet then o.reseed (charSum (path ++ ":" ++ methodStr m)) s else s
  match pickResponse m op.responses with
  | none => some { status := 204, body := none, store := st, cache := rc, rng := s0 }
  | some resp =>
      match resolveRespSchema fuel specDoc resp rc with
      | none => none
      | some (Except.error _) => some (mk500 st rc s0)
      | some (Except.ok (schemaOpt, rc1)) =>
          let after := fun (rc2 : RefCache) =>
            if cfg.stateful then
              match statefulStep o fuel specDoc path m schemaOpt req st rc2 s0 with
              | SfOut.respond out => some out
              | SfOut.diverge => none
              | SfOut.threw st2 rc3 s2 => some (mk500 st2 rc3 s2)
              | SfOut.fallthrough =>
                  statelessStep o fuel specDoc m op schemaOpt req st rc2 s0
            else statelessStep o fuel specDoc m op schemaOpt req st rc2 s0
          if (m = Method.post ∨ m = Method.put ∨ m = Method.patch) ∧ hasBodyContent req.body then
            match validateRequestBody ajv fuel req.body op specDoc rc1 with
            | none => none
            | some (Except.error _) => some (mk500 st rc1 s0)
            | some (Except.ok (vr, rc2)) =>
                if vr.valid then after rc2
                else
                  some { status := 400,
                         body := some (validationFailedJson (vr.errors.getD [])),
                         store := st, cache := rc2, rng := s0 }
          else after rc1

/-! ### Concrete instances used by witnesses -/

/-- A fixed sample output per faker routine. -/
def sampleStr : StrKind → String
  | StrKind.uuid => "00000000-0000-4000-8000-000000000000"
  | StrKind.loremWord => "lorem"
  | StrKind.loremWords15 => "lorem ipsum"
  | _ => "sample"

/-- A deterministic oracle over a step counter, satisfying
`Oracle.Lawful`. -/
def constOracle : Oracle Nat :=
  { rand := fun n => ((1 : Rat)/2, n + 1)
    fkIntR := fun a _ n => (Rat.ceil a, n + 1)
    fkFloat := fun a _ n => (a, n + 1)
    fkBool := fun n => (true, n + 1)
    fkPickIdx := fun _ n => (0, n + 1)
    fkStr := fun k n => (sampleStr k, n + 1)
    uuidV4 := fun n => (String.append "uuid-" (Nat.repr n), n + 1)
    nowIso := fun n => (String.append "2026-01-01T00:00:00." (Nat.repr n), n + 1)
    reseed := fun _ n => n }

/-- An ajv model that compiles everything and accepts everything. -/
def acceptAjv : AjvModel := { compile := fun _ => some (fun _ => (true, none)) }

def opPostW : Operation := { responses := [("201", { jsonSchema := none })] }

def opGetW : Operation := { responses := [("200", { jsonSchema := none })] }

def cfgStateful : MockConfig := { stateful := true }

example :
    (handle constOracle acceptAjv 10 (Json.obj []) "/widgets" Method.post opPostW
      cfgStateful { params := [], body := Json.obj [("name", Json.str "A")] }
      none [] 0).map (fun h => (h.status, h.body)) =
    some (201, some (Json.obj
      [("id", Json.str "uuid-0"), ("name", Json.str "A"),
       ("createdAt", Json.str "2026-01-01T00:00:00.1")])) := rfl

example :
    (handle constOracle acceptAjv 10 (Json.obj []) "/widgets/{id}" Method.get opGetW
      cfgStateful { params := [("id", "uuid-0")], body := Json.obj [] }
      (some [("/widgets",
        [[("id", Json.str "uuid-0"), ("name", Json.str "A"),
          ("createdAt", Json.str "2026-01-01T00:00:00.1")]])]) [] 2).map
      (fun h => (h.status, h.body)) =
    some (200, some (Json.obj
      [("id", Json.str "uuid-0"), ("name", Json.str "A"),
       ("createdAt", Json.str "2026-01-01T00:00:00.1")])) := rfl

/-! ### Association-list lemmas -/

theorem lookupKey_append {α : Type} (l1 l2 : List (String × α)) (k : String) :
    lookupKey (l1 ++ l2) k =
      match lookupKey l1 k with
      | some v => some v
      | none => lookupKey l2 k := by
  induction l1 with
  | nil => simp [lookupKey]
  | cons h t ih =>
      simp only [List.cons_append, lookupKey]
      by_cases hk : h.1 = k
      · simp [hk]
      · simp [hk, ih]

theorem lookupKey_map_value {α β : Type} (f : α → β) (l : List (String × α)) (k : String) :
    lookupKey (l.map (fun kv => (kv.1, f kv.2))) k = (lookupKey l k).map f := by
  induction l with
  | nil => simp [lookupKey]
  | cons h t ih =>
      simp only [List.map_cons, lookupKey]
      by_cases hk : h.1 = k
      · simp [hk]
      · simp [hk, ih]

theorem lookupF_upsertF_self (fs : List (String × Json)) (k : String) (v : Json) :
    Json.lookupF (upsertF fs k v) k = some v := by
  induction fs with
  | nil => simp [upsertF, Json.lookupF]
  | cons h t ih =>
      simp only [upsertF]
      by_cases hk : h.1 = k
      · simp [hk, Json.lookupF]
      · simp [hk, Json.lookupF, ih]

theorem lookupF_upsertF_ne (fs : List (String × Json)) (k : String) (v : Json)
    (k' : String) (hne : k' ≠ k) :
    Json.lookupF (upsertF fs k v) k' = Json.lookupF fs k' := by
  induction fs with
  | nil =>
      show (if k = k' then some v else none) = none
      exact if_neg (fun he => hne he.symm)
  | cons e t ih =>
      simp only [upsertF]
      by_cases hk : e.1 = k
      · rw [if_pos hk]
        show (if k = k' then some v else Json.lookupF t k') = _
        rw [if_neg (fun he => hne he.symm), Json.lookupF, if_neg (fun he => hne (hk ▸ he).symm)]
      · rw [if_neg hk]
        show (if e.1 = k' then some e.2 else Json.lookupF (upsertF t k v) k') = _
        rw [Json.lookupF]
        by_cases hk' : e.1 = k'
        · rw [if_pos hk', if_pos hk']
        · rw [if_neg hk', if_neg hk', ih]

theorem lookupF_upsertAll_not_mem (base extra : List (String × Json)) (k : String)
    (h : Json.lookupF extra k = none) :
    Json.lookupF (upsertAll base extra) k = Json.lookupF base k := by
  induction extra generalizing base with
  | nil => simp [upsertAll]
  | cons e rest ih =>
      have hne : e.1 ≠ k := by
        intro hk
        simp [Json.lookupF, hk] at h
      have hrest : Json.lookupF rest k = none := by
        simpa [Json.lookupF, hne] using h
      show Json.lookupF (upsertAll (upsertF base e.1 e.2) rest) k = _
      rw [ih (upsertF base e.1 e.2) hrest,
        lookupF_upsertF_ne base e.1 e.2 k (fun hk => hne hk.symm)]

theorem lookupF_eq_none_of_not_mem (l : List (String × Json)) (k : String)
    (h : k ∉ l.map Prod.fst) : Json.lookupF l k = none := by
  induction l with
  | nil => rfl
  | cons e rest ih =>
      simp only [List.map_cons, List.mem_cons, not_or] at h
      rw [Json.lookupF, if_neg (fun he => h.1 he.symm)]
      exact ih h.2

theorem lookupF_upsertAll_mem (base extra : List (String × Json)) (k : String) (v : Json)
    (hnd : (extra.map Prod.fst).Nodup) (h : Json.lookupF extra k = some v) :
    Json.lookupF (upsertAll base extra) k = some v := by
  induction extra generalizing base with
  | nil => simp [Json.lookupF] at h
  | cons e rest ih =>
      simp only [List.map_cons, List.nodup_cons] at hnd
      by_cases hk : e.1 = k
      · have hv : e.2 = v := by
          have := h
          simp only [Json.lookupF, if_pos hk] at this
          exact Option.some.inj this
        have hrest : Json.lookupF rest k = none :=
          lookupF_eq_none_of_not_mem rest k (hk ▸ hnd.1)
        show Json.lookupF (upsertAll (upsertF base e.1 e.2) rest) k = some v
        rw [lookupF_upsertAll_not_mem _ _ _ hrest, hk, lookupF_upsertF_self, hv]
      · have hr : Json.lookupF rest k = some v := by
          have := h
          rw [Json.lookupF, if_neg hk] at this
          exact this
        exact ih (upsertF base e.1 e.2) hnd.2 hr

theorem lookupKey_setKey_self {α : Type} (l : List (String × α)) (k : String) (v : α) :
    lookupKey (setKey l k v) k = some v := by
  induction l with
  | nil => simp [setKey, lookupKey]
  | cons e t ih =>
      simp only [setKey]
      by_cases hk : e.1 = k
      · simp [hk, lookupKey]
      · simp only [if_neg hk, lookupKey, ih]

/-! ### Claim C10: reads insert empty collections, observable via stats -/

/-- C10: every State Store operation — the pure reads `getAll` and
`getById` included — goes through `getStore`, which inserts an empty
collection entry for a collection key never seen before; `stats()`
afterwards reports that key with count 0 although nothing was ever
created in it. -/
theorem C10_reads_insert_empty_collection (path : String) (st : StoreSt) (id : String)
    (h : lookupKey (st.getD []) (normalizeKey path) = none) :
    lookupKey (StateManager.stats (StateManager.getAll path st).2) (normalizeKey path)
      = some 0 ∧
    lookupKey (StateManager.stats (StateManager.getById path id st).2) (normalizeKey path)
      = some 0 := by
  have hg : (StateManager.getStore path st).2
      = some ((st.getD []) ++ [(normalizeKey path, ([] : List Item))]) := by
    simp only [StateManager.getStore, h]
  have hstats : lookupKey (StateManager.stats (StateManager.getStore path st).2)
      (normalizeKey path) = some 0 := by
    rw [hg]
    unfold StateManager.stats
    rw [Option.getD_some, lookupKey_map_value, lookupKey_append, h]
    simp [lookupKey]
  exact ⟨hstats, hstats⟩

/-- Witness for C10 at a concrete fresh store and path. -/
theorem C10_reads_insert_empty_collection_witness :
    lookupKey ((StateManager.clear).getD []) (normalizeKey "/widgets") = none ∧
    lookupKey (StateManager.stats (StateManager.getAll "/widgets" StateManager.clear).2)
      (normalizeKey "/widgets") = some 0 ∧
    lookupKey (StateManager.stats
      (StateManager.getById "/widgets" "x" StateManager.clear).2)
      (normalizeKey "/widgets") = some 0 :=
  ⟨rfl,
   (C10_reads_insert_empty_collection "/widgets" StateManager.clear "x" rfl).1,
   (C10_reads_insert_empty_collection "/widgets" StateManager.clear "x" rfl).2⟩

/-! ### Claim C2: create and supplied ids -/

/-- C2 counterexample: `create` spreads the input AFTER the generated id
(`{id: uuidv4(), ...data, createdAt}`), so an `id` supplied in the input
overwrites the fresh one — the created item carries `"evil"`, not the
uuid the oracle generated at this call. -/
theorem C2_counterexample :
    Json.lookupF (StateManager.create constOracle "/widgets"
        (Json.obj [("id", Json.str "evil"), ("name", Json.str "A")])
        StateManager.clear 0).1 "id" = some (Json.str "evil")
    ∧ (constOracle.uuidV4 0).1 = "uuid-0"
    ∧ Json.str "evil" ≠ Json.str "uuid-0" := by
  refine ⟨rfl, rfl, ?_⟩
  intro hcl
  injection hcl with h2
  exact absurd h2 (by decide)

/-- C2 amended: `create` builds `{id: fresh uuid, ...data, createdAt:
fresh timestamp}` and appends it to the collection; the fresh id is the
item's id only when the input supplies no `id` field — a supplied `id`
overwrites the generated one — while `createdAt` is always the fresh
timestamp, overwriting any supplied value. -/
theorem C2_create_id_and_timestamp {σ : Type} (o : Oracle σ) (path : String)
    (data : Json) (st : StoreSt) (s : σ)
    (hnd : ((spreadFields data).map Prod.fst).Nodup) :
    Json.lookupF (StateManager.create o path data st s).1 "createdAt"
      = some (Json.str (o.nowIso (o.uuidV4 s).2).1)
    ∧ (Json.lookupF (spreadFields data) "id" = none →
        Json.lookupF (StateManager.create o path data st s).1 "id"
          = some (Json.str (o.uuidV4 s).1))
    ∧ (∀ v, Json.lookupF (spreadFields data) "id" = some v →
        Json.lookupF (StateManager.create o path data st s).1 "id" = some v)
    ∧ lookupKey ((StateManager.create o path data st s).2.1.getD [])
        (normalizeKey path)
      = some ((StateManager.getStore path st).1 ++ [(StateManager.create o path data st s).1]) := by
  have hsingle : ∀ (base : List (String × Json)) (k : String) (v : Json),
      upsertAll base [(k, v)] = upsertF base k v := by
    intro base k v
    simp [upsertAll]
  refine ⟨?_, ?_, ?_, ?_⟩
  · show Json.lookupF (upsertAll (upsertAll [("id", Json.str (o.uuidV4 s).1)]
        (spreadFields data)) [("createdAt", Json.str (o.nowIso (o.uuidV4 s).2).1)])
        "createdAt" = _
    rw [hsingle, lookupF_upsertF_self]
  · intro hid
    show Json.lookupF (upsertAll (upsertAll [("id", Json.str (o.uuidV4 s).1)]
        (spreadFields data)) [("createdAt", Json.str (o.nowIso (o.uuidV4 s).2).1)])
        "id" = _
    rw [hsingle, lookupF_upsertF_ne _ _ _ _ (by decide),
      lookupF_upsertAll_not_mem _ _ _ hid]
    rfl
  · intro v hid
    show Json.lookupF (upsertAll (upsertAll [("id", Json.str (o.uuidV4 s).1)]
        (spreadFields data)) [("createdAt", Json.str (o.nowIso (o.uuidV4 s).2).1)])
        "id" = _
    rw [hsingle, lookupF_upsertF_ne _ _ _ _ (by decide),
      lookupF_upsertAll_mem _ _ _ _ hnd hid]
  · show lookupKey (setKey ((StateManager.getStore path st).2.getD [])
        (normalizeKey path) ((StateManager.getStore path st).1 ++ [_])) _ = _
    rw [lookupKey_setKey_self]
    rfl

/-- Witness for C2 amended at a concrete input without a supplied id. -/
theorem C2_create_id_and_timestamp_witness :
    Json.lookupF (StateManager.create constOracle "/w"
        (Json.obj [("name", Json.str "A")]) StateManager.clear 0).1 "createdAt"
      = some (Json.str "2026-01-01T00:00:00.1")
    ∧ Json.lookupF (StateManager.create constOracle "/w"
        (Json.obj [("name", Json.str "A")]) StateManager.clear 0).1 "id"
      = some (Json.str "uuid-0") :=
  ⟨(C2_create_id_and_timestamp constOracle "/w" (Json.obj [("name", Json.str "A")])
      StateManager.clear 0 (by decide)).1,
   (C2_create_id_and_timestamp constOracle "/w" (Json.obj [("name", Json.str "A")])
      StateManager.clear 0 (by decide)).2.1 rfl⟩

/-! ### Claim C3: when reference resolution fails -/

theorem resolveRefNav_append (ref : String) (ps qs : List String) (cur : Option Json) :
    resolveRefNav ref (ps ++ qs) cur =
      (resolveRefNav ref ps cur).bind (fun c => resolveRefNav ref qs c) := by
  induction ps generalizing cur with
  | nil => rfl
  | cons p rest ih =>
      cases cur with
      | none => rfl
      | some j =>
          cases j with
          | obj fs =>
              show resolveRefNav ref (rest ++ qs) (Json.lookupF fs p) = _
              rw [ih]
              rfl
          | arr xs =>
              show resolveRefNav ref (rest ++ qs) (jsIndex (Json.arr xs) p) = _
              rw [ih]
              rfl
          | null => rfl
          | bool b => rfl
          | num q => rfl
          | str t => rfl

def mockSpecJson : Json :=
  Json.obj [("components", Json.obj [("schemas", Json.obj
    [("User", Json.obj [("type", Json.str "object")])])])]

/-- C3 counterexample: resolving a `$ref` whose FINAL segment is missing
does not fail — the navigation loop ends with `current = undefined` and
`resolveRef` returns (and caches) undefined instead of throwing.  This
matches the repo's own unit test, which expects `undefined` for
`#/components/schemas/NonExistent`. -/
theorem C3_counterexample :
    resolveRef "#/components/schemas/NonExistent" mockSpecJson []
      = Except.ok (none, [("#/components/schemas/NonExistent", none)])
    ∧ ∀ e, resolveRef "#/components/schemas/NonExistent" mockSpecJson []
        ≠ Except.error e := by
  refine ⟨rfl, ?_⟩
  intro e h
  rw [show resolveRef "#/components/schemas/NonExistent" mockSpecJson []
      = Except.ok (none, [("#/components/schemas/NonExistent", none)]) from rfl] at h
  exact Except.noConfusion h

/-- C3 amended: resolution fails (`Cannot resolve reference`) exactly
when a NON-final path segment cannot be found — the next loop iteration
then sees a non-object `current` — while a missing final segment yields
an undefined result without an error, which is also cached. -/
theorem C3_resolveRef_failure_modes (specDoc : Json) (ref : String) (cache : RefCache)
    (hmiss : lookupKey cache ref = none) :
    (∀ (ps : List String) (last : String) (fs : List (String × Json)),
       splitSlash (replaceFirstHashSlash ref) = ps ++ [last] →
       resolveRefNav ref ps (some specDoc) = Except.ok (some (Json.obj fs)) →
       Json.lookupF fs last = none →
       resolveRef ref specDoc cache = Except.ok (none, cache ++ [(ref, none)]))
    ∧ (∀ (ps : List String) (p q : String) (qs : List String)
         (fs : List (String × Json)),
       splitSlash (replaceFirstHashSlash ref) = ps ++ p :: q :: qs →
       resolveRefNav ref ps (some specDoc) = Except.ok (some (Json.obj fs)) →
       Json.lookupF fs p = none →
       resolveRef ref specDoc cache = Except.error ("Cannot resolve reference: " ++ ref)) := by
  constructor
  · intro ps last fs hsplit hnav hlast
    have hfull : resolveRefNav ref (splitSlash (replaceFirstHashSlash ref)) (some specDoc)
        = Except.ok none := by
      rw [hsplit, resolveRefNav_append, hnav]
      show resolveRefNav ref [last] (some (Json.obj fs)) = _
      show resolveRefNav ref [] (Json.lookupF fs last) = _
      rw [hlast]
      rfl
    unfold resolveRef
    rw [hmiss]
    simp only [hfull]
  · intro ps p q qs fs hsplit hnav hp
    have hfull : resolveRefNav ref (splitSlash (replaceFirstHashSlash ref)) (some specDoc)
        = Except.error ("Cannot resolve reference: " ++ ref) := by
      rw [hsplit, resolveRefNav_append, hnav]
      show resolveRefNav ref (p :: q :: qs) (some (Json.obj fs)) = _
      show resolveRefNav ref (q :: qs) (Json.lookupF fs p) = _
      rw [hp]
      rfl
    unfold resolveRef
    rw [hmiss]
    simp only [hfull]

/-- Witness for C3 amended: a missing final segment resolves to
undefined, a missing middle segment throws. -/
theorem C3_resolveRef_failure_modes_witness :
    resolveRef "#/components/schemas/NonExistent" mockSpecJson []
      = Except.ok (none, [("#/components/schemas/NonExistent", none)])
    ∧ resolveRef "#/missing/schemas/X" mockSpecJson []
      = Except.error "Cannot resolve reference: #/missing/schemas/X" := by
  constructor
  · exact (C3_resolveRef_failure_modes mockSpecJson "#/components/schemas/NonExistent"
      [] rfl).1 ["components", "schemas"] "NonExistent" _ rfl rfl rfl
  · exact (C3_resolveRef_failure_modes mockSpecJson "#/missing/schemas/X"
      [] rfl).2 [] "missing" "schemas" ["X"] _ rfl rfl rfl

/-! ### Claim C7: status convention, response lookup chain, 204 fallback -/

/-- C7: the success status follows the method convention (`POST` → 201,
all other methods → 200), the response entry is
`responses[successCode] || responses['200'] || responses['default']`,
and when none of these exists the handler responds 204 with no body,
leaving the store untouched. -/
theorem C7_response_lookup_and_204 {σ : Type} (o : Oracle σ) (ajv : AjvModel)
    (fuel : Nat) (specDoc : Json) (path : String) (m : Method) (op : Operation)
    (cfg : MockConfig) (req : Req) (st : StoreSt) (rc : RefCache) (s : σ) :
    (successCode Method.post = "201" ∧ (m ≠ Method.post → successCode m = "200"))
    ∧ (∀ r, lookupKey op.responses (successCode m) = some r →
        pickResponse m op.responses = some r)
    ∧ (lookupKey op.responses (successCode m) = none →
        ∀ r, lookupKey op.responses "200" = some r →
          pickResponse m op.responses = some r)
    ∧ (lookupKey op.responses (successCode m) = none →
        lookupKey op.responses "200" = none →
        pickResponse m op.responses = lookupKey op.responses "default")
    ∧ (pickResponse m op.responses = none →
        ∃ s', handle o ajv fuel specDoc path m op cfg req st rc s
          = some { status := 204, body := none, store := st, cache := rc, rng := s' }) := by
  refine ⟨⟨rfl, ?_⟩, ?_, ?_, ?_, ?_⟩
  · intro hm
    unfold successCode
    rw [if_neg hm]
  · intro r h
    unfold pickResponse
    rw [h]
  · intro h0 r h
    unfold pickResponse
    rw [h0, h]
  · intro h0 h2
    unfold pickResponse
    rw [h0, h2]
  · intro h
    refine ⟨if op.xDet then o.reseed (charSum (path ++ ":" ++ methodStr m)) s else s, ?_⟩
    unfold handle
    rw [h]

def respW : ResponseObj := { jsonSchema := none }

def opEmptyResp : Operation := { responses := [] }

/-- Witness for C7: each lookup step and the 204 fallback at concrete
operations. -/
theorem C7_response_lookup_and_204_witness :
    pickResponse Method.post [("201", respW)] = some respW
    ∧ pickResponse Method.get [("default", respW)] = some respW
    ∧ (handle constOracle acceptAjv 1 (Json.obj []) "/x" Method.get opEmptyResp
        { stateful := false } { params := [], body := Json.obj [] } StateManager.clear
        [] 0).map (fun h => (h.status, h.body, h.store, h.cache))
      = some (204, none, StateManager.clear, ([] : RefCache)) := by
  refine ⟨?_, ?_, ?_⟩
  · exact (C7_response_lookup_and_204 constOracle acceptAjv 1 (Json.obj []) "/x"
      Method.post { responses := [("201", respW)] } { stateful := false }
      { params := [], body := Json.obj [] } StateManager.clear [] 0).2.1 respW rfl
  · exact ((C7_response_lookup_and_204 constOracle acceptAjv 1 (Json.obj []) "/x"
      Method.get { responses := [("default", respW)] } { stateful := false }
      { params := [], body := Json.obj [] } StateManager.clear [] 0).2.2.2.1
      rfl rfl).trans rfl
  · obtain ⟨s', h⟩ := (C7_response_lookup_and_204 constOracle acceptAjv 1 (Json.obj [])
      "/x" Method.get opEmptyResp { stateful := false }
      { params := [], body := Json.obj [] } StateManager.clear [] 0).2.2.2.2 rfl
    rw [h]
    rfl

/-! ### Claim C8: path-parameter injection in stateless mode -/

theorem findq_append {α : Type} (pd : α → Bool) (l1 l2 : List α) :
    List.find? pd (l1 ++ l2) =
      match List.find? pd l1 with
      | some x => some x
      | none => List.find? pd l2 := by
  induction l1 with
  | nil => simp
  | cons x rest ih =>
      by_cases hx : pd x
      · simp [List.find?, hx]
      · rw [Bool.not_eq_true] at hx
        simp only [List.cons_append, List.find?, hx]
        exact ih

/-- The value of the last path parameter whose name is `id` or ends in
`Id`, if any. -/
def lastIdLikeParam (params : List (String × String)) : Option String :=
  (params.reverse.find? (fun kv => kv.1 = "id" || strEndsWith kv.1 "Id")).map
    (fun kv => kv.2)

/-- C8 amended: the injection loop (lines 196-200) tests the PARAMETER
name against `id`/`*Id` and always writes to the object's `id` key: keys
other than `id` are never modified, and `id` receives the value of the
last id-like parameter (or keeps its generated value when there is
none). -/
theorem C8_inject_params (params : List (String × String))
    (fields : List (String × Json)) :
    (∀ k, k ≠ "id" →
        Json.lookupF (injectParams params fields) k = Json.lookupF fields k)
    ∧ (∀ v, lastIdLikeParam params = some v →
        Json.lookupF (injectParams params fields) "id" = some (Json.str v))
    ∧ (lastIdLikeParam params = none →
        Json.lookupF (injectParams params fields) "id" = Json.lookupF fields "id") := by
  induction params generalizing fields with
  | nil =>
      refine ⟨fun k _ => rfl, fun v hv => ?_, fun _ => rfl⟩
      simp [lastIdLikeParam] at hv
  | cons p ps ih =>
      have hstep : injectParams (p :: ps) fields =
          injectParams ps
            (if p.1 = "id" || strEndsWith p.1 "Id" then
              upsertF fields "id" (Json.str p.2)
            else fields) := rfl
      have hlast : lastIdLikeParam (p :: ps) =
          match lastIdLikeParam ps with
          | some v => some v
          | none =>
              if p.1 = "id" || strEndsWith p.1 "Id" then some p.2 else none := by
        unfold lastIdLikeParam
        rw [List.reverse_cons, findq_append]
        cases hf : List.find? (fun kv => kv.1 = "id" || strEndsWith kv.1 "Id") ps.reverse with
        | some kv => rfl
        | none =>
            by_cases hc : (p.1 = "id" || strEndsWith p.1 "Id") = true
            · simp [List.find?, hc]
            · rw [Bool.not_eq_true] at hc
              simp [List.find?, hc]
      refine ⟨?_, ?_, ?_⟩
      · intro k hk
        rw [hstep]
        by_cases hc : (p.1 = "id" || strEndsWith p.1 "Id") = true
        · rw [if_pos hc, (ih _).1 k hk, lookupF_upsertF_ne _ _ _ _ hk]
        · rw [if_neg hc, (ih _).1 k hk]
      · intro v hv
        rw [hstep, hlast] at *
        cases hps : lastIdLikeParam ps with
        | some w =>
            rw [hps] at hv
            exact (ih _).2.1 v (hps.trans (by injection hv with h2; rw [h2]))
        | none =>
            rw [hps] at hv
            by_cases hc : (p.1 = "id" || strEndsWith p.1 "Id") = true
            · rw [if_pos hc] at hv
              injection hv with h2
              rw [if_pos hc, (ih _).2.2 hps, lookupF_upsertF_self, h2]
            · rw [if_neg hc] at hv
              exact Option.noConfusion hv
      · intro hv
        rw [hstep, hlast] at *
        cases hps : lastIdLikeParam ps with
        | some w => rw [hps] at hv; exact Option.noConfusion hv
        | none =>
            rw [hps] at hv
            by_cases hc : (p.1 = "id" || strEndsWith p.1 "Id") = true
            · rw [if_pos hc] at hv
              exact Option.noConfusion hv
            · rw [if_neg hc, (ih _).2.2 hps]

/-- Witness for C8 amended at one parameter and one object. -/
theorem C8_inject_params_witness :
    Json.lookupF (injectParams [("userId", "7")] [("ownerId", Json.str "x")]) "ownerId"
      = some (Json.str "x")
    ∧ Json.lookupF (injectParams [("userId", "7")] [("ownerId", Json.str "x")]) "id"
      = some (Json.str "7") :=
  ⟨(C8_inject_params [("userId", "7")] [("ownerId", Json.str "x")]).1 "ownerId"
      (by decide),
   (C8_inject_params [("userId", "7")] [("ownerId", Json.str "x")]).2.1 "7" rfl⟩

def opC8 : Operation :=
  { responses := [("200",
      { jsonSchema := some (Json.obj
          [("type", Json.str "object"),
           ("properties", Json.obj [("ownerId", Json.obj [("type", Json.str "string")])]),
           ("required", Json.arr [Json.str "ownerId"])]) })] }

/-- C8 counterexample: with path parameter `userId = "7"` and a generated
object whose key `ownerId` ends in `Id`, the handler leaves `ownerId`
untouched and writes "7" into the key `id` instead — the claim's
"inject wherever the object key is `id` or ends with `Id`" fails. -/
theorem C8_counterexample :
    (handle constOracle acceptAjv 10 (Json.obj []) "/users/{userId}" Method.get opC8
      { stateful := false } { params := [("userId", "7")], body := Json.obj [] }
      StateManager.clear [] 0).map (fun h => h.body)
      = some (some (Json.obj [("ownerId", Json.str "lorem ipsum"), ("id", Json.str "7")]))
    ∧ strEndsWith "ownerId" "Id" = true
    ∧ Json.str "lorem ipsum" ≠ Json.str "7" := by
  refine ⟨rfl, rfl, ?_⟩
  intro hcl
  injection hcl with h2
  exact absurd h2 (by decide)

/-! ### Claim C6: array generation bounds -/

theorem rbind_eq_ok {α β : Type} {m : RRes α} {f : α → RRes β} {b : β}
    (h : rbind m f = some (Except.ok b)) :
    ∃ a, m = some (Except.ok a) ∧ f a = some (Except.ok b) := by
  cases m with
  | none => exact Option.noConfusion h
  | some r =>
      cases r with
      | error e =>
          rw [show rbind (some (Except.error e)) f = some (Except.error e) from rfl] at h
          injection h with h2
          exact Except.noConfusion h2
      | ok a => exact ⟨a, rfl, h⟩

theorem genRepeat_length {σ : Type} (g : Json → Ctx → σ → RRes (Json × σ))
    (item : Json) (ctx : Ctx) :
    ∀ (n i : Nat) (acc : List Json) (s : σ) (l : List Json) (s' : σ),
      genRepeat g item ctx n i acc s = some (Except.ok (l, s')) →
      l.length = acc.length + n := by
  intro n
  induction n with
  | zero =>
      intro i acc s l s' h
      injection h with h2
      injection h2 with h3
      rw [show l = acc.reverse from congrArg Prod.fst h3.symm]
      simp
  | succ n ih =>
      intro i acc s l s' h
      obtain ⟨a, _, hf⟩ := rbind_eq_ok h
      have hl := ih (i + 1) (a.1 :: acc) a.2 l s' hf
      simp only [List.length_cons] at hl
      omega

/-- C6 amended: in `generateArray`, the element count is drawn from
`[minItems ?? 1, min(maxItems ?? 5, 100)]`, so WHEN AN `items` SCHEMA IS
PRESENT a successfully generated sequence's length lies in that
interval; without an `items` schema the result is the EMPTY sequence
(whose length 0 is below the interval's default lower bound 1 — the
bound conjunct cannot cover that case); element generation uses a
context with the depth unchanged and the path extended by the element
index. -/
theorem C6_array_bounds {σ : Type} (o : Oracle σ) (hL : o.Lawful)
    (g : Json → Ctx → σ → RRes (Json × σ)) (schema : Json) (ctx : Ctx) (s : σ)
    (hlo1 : ((ratFieldF schema "minItems").getD 1).den = 1)
    (hhi1 : ((ratFieldF schema "maxItems").getD 5).den = 1)
    (hlo0 : 0 ≤ (ratFieldF schema "minItems").getD 1) :
    (∀ j s', (Json.get? schema "items" = none ∨
        (∃ iv, Json.get? schema "items" = some iv ∧ iv.truthy = false)) →
      generateArray o g schema ctx s = some (Except.ok (j, s')) → j = Json.arr [])
    ∧ (∀ iv l s', Json.get? schema "items" = some iv → iv.truthy = true →
      generateArray o g schema ctx s = some (Except.ok (Json.arr l, s')) →
      (ratFieldF schema "minItems").getD 1 ≤ (l.length : Rat) ∧
        (l.length : Rat) ≤ min ((ratFieldF schema "maxItems").getD 5) 100)
    ∧ (∀ i, (arrayElemCtx ctx i).depth = ctx.depth ∧
        (arrayElemCtx ctx i).path = ctx.path ++ [Nat.repr i] ∧
        (arrayElemCtx ctx i).index = some i) := by
  have hhimin : (min ((ratFieldF schema "maxItems").getD 5) 100).den = 1 := by
    rcases min_choice ((ratFieldF schema "maxItems").getD 5) (100 : Rat) with hmc | hmc <;>
      rw [hmc]
    · exact hhi1
    · norm_num
  refine ⟨?_, ?_, fun i => ⟨rfl, rfl, rfl⟩⟩
  · intro j s' hit h
    by_cases hcmp : min ((ratFieldF schema "maxItems").getD 5) 100 <
        (ratFieldF schema "minItems").getD 1
    · simp only [generateArray, if_pos hcmp] at h
      injection h with h2
      exact Except.noConfusion h2
    · rcases hit with hnone | ⟨iv, hiv, hfalse⟩
      · simp only [generateArray, if_neg hcmp, hnone] at h
        injection h with h2
        injection h2 with h3
        exact (congrArg Prod.fst h3).symm
      · simp only [generateArray, if_neg hcmp, hiv, hfalse, Bool.false_eq_true,
          if_false] at h
        injection h with h2
        injection h2 with h3
        exact (congrArg Prod.fst h3).symm
  · intro iv l s' hiv htr h
    by_cases hcmp : min ((ratFieldF schema "maxItems").getD 5) 100 <
        (ratFieldF schema "minItems").getD 1
    · simp only [generateArray, if_pos hcmp] at h
      injection h with h2
      exact Except.noConfusion h2
    · simp only [generateArray, if_neg hcmp, hiv, htr, if_true] at h
      obtain ⟨a, hgen, hf⟩ := rbind_eq_ok h
      have hlen := genRepeat_length g iv ctx _ 0 [] _ a.1 a.2 hgen
      injection hf with hf2
      injection hf2 with hf3
      have hal : a.1 = l := by
        have hjson : Json.arr a.1 = Json.arr l := congrArg Prod.fst hf3
        injection hjson
      have hmem := hL.fkIntR_mem ((ratFieldF schema "minItems").getD 1)
        (min ((ratFieldF schema "maxItems").getD 5) 100) s hlo1 hhimin (not_lt.mp hcmp)
      have hc0 : 0 ≤ (o.fkIntR ((ratFieldF schema "minItems").getD 1)
          (min ((ratFieldF schema "maxItems").getD 5) 100) s).1 := by
        have h0r : (0 : Rat) ≤ _ := le_trans hlo0 hmem.1
        exact_mod_cast h0r
      have hlength : (l.length : Rat) =
          ((o.fkIntR ((ratFieldF schema "minItems").getD 1)
            (min ((ratFieldF schema "maxItems").getD 5) 100) s).1 : Rat) := by
        rw [← hal, hlen]
        have : ((Int.toNat _ : Nat) : Rat) = _ :=
          congrArg (fun z : Int => (z : Rat)) (Int.toNat_of_nonneg hc0)
        simpa using this
      rw [hlength]
      exact hmem

theorem constOracle_lawful : constOracle.Lawful := by
  constructor
  · intro a b s ha hb hab
    have hceil : Rat.ceil a = a.num := by
      unfold Rat.ceil
      rw [if_pos ha]
    show a ≤ ((Rat.ceil a : Int) : Rat) ∧ ((Rat.ceil a : Int) : Rat) ≤ b
    rw [hceil, Rat.coe_int_num_of_den_eq_one ha]
    exact ⟨le_refl a, hab⟩
  · intro n s hn
    exact hn

/-- C6 counterexample: for an array schema WITHOUT an `items` schema the
code draws the count and then returns the empty sequence, whose length 0
does not lie in the claimed interval `[minItems ?? 1, min(maxItems ?? 5,
100)] = [1, 5]`. -/
theorem C6_counterexample :
    generateFromSchema constOracle 2 (Json.obj [("type", Json.str "array")])
      { path := [], depth := 0 } 0 = some (Except.ok (Json.arr [], 1))
    ∧ ¬((1 : Rat) ≤ ((([] : List Json).length : Nat) : Rat)) := by
  refine ⟨rfl, ?_⟩
  norm_num

def schemaC6W : Json :=
  Json.obj [("type", Json.str "array"), ("minItems", Json.num 2),
            ("maxItems", Json.num 3),
            ("items", Json.obj [("type", Json.str "string")])]

/-- Witness for C6 amended at a concrete array schema with items. -/
theorem C6_array_bounds_witness :
    generateArray constOracle (generateFromSchema constOracle 5) schemaC6W
      { path := [], depth := 0 } 0
      = some (Except.ok (Json.arr [Json.str "lorem ipsum", Json.str "lorem ipsum"], 3))
    ∧ ((ratFieldF schemaC6W "minItems").getD 1 ≤ ((2 : Nat) : Rat)
       ∧ ((2 : Nat) : Rat) ≤ min ((ratFieldF schemaC6W "maxItems").getD 5) 100) :=
  ⟨rfl,
   (C6_array_bounds constOracle constOracle_lawful
      (generateFromSchema constOracle 5) schemaC6W { path := [], depth := 0 } 0
      (by decide) (by decide) (by decide)).2.1
    (Json.obj [("type", Json.str "string")])
    [Json.str "lorem ipsum", Json.str "lorem ipsum"] 3 rfl rfl rfl⟩

/-! ### Claim C4: generic string length bounds -/

/-- An oracle realizing faker draws that expose the padding overshoot:
`faker.lorem.words` returns "amet", `faker.lorem.word` returns "sed". -/
def padOracle : Oracle Nat :=
  { constOracle with
      fkStr := fun k n =>
        ((match k with
          | StrKind.loremWords15 => "amet"
          | StrKind.loremWord => "sed"
          | _ => sampleStr k), n + 1) }

/-- C4 failing input: for `{type: "string", minLength: 5, maxLength: 6}`
with faker drawing the word sequence "amet" and then the padding word
"sed", `generateString` pads PAST `maxLength` — the result "amet sed"
has length 8 > 6, violating the claimed (and unit-tested) bound.  The
truncate-then-pad code (faker-adapter.ts lines 126-138) caps the initial
draw but not the padded value. -/
theorem C4_code_bug_eval :
    generateFromSchema padOracle 1
      (Json.obj [("type", Json.str "string"), ("minLength", Json.num 5),
                 ("maxLength", Json.num 6)])
      { path := [], depth := 0 } 0
      = some (Except.ok (Json.str "amet sed", 2))
    ∧ ("amet sed".length = 8)
    ∧ ¬(((8 : Nat) : Rat) ≤ 6) := by
  refine ⟨rfl, rfl, ?_⟩
  norm_num

/-! ### Claim C9: request-body validation -/

/-- ajv's documented contract: when a compiled validator returns false,
`validate.errors` is a non-empty array. -/
def AjvContract (ajv : AjvModel) : Prop :=
  ∀ sch vf, ajv.compile sch = some vf → ∀ b, (vf b).1 = false →
    ∃ l, (vf b).2 = some l ∧ l ≠ []

theorem validateRequestBody_invalid_nonempty (ajv : AjvModel) (hc : AjvContract ajv)
    (fuel : Nat) (body : Json) (op : Operation) (specDoc : Json) (rc : RefCache)
    (vr : ValidationResult) (rc2 : RefCache)
    (h : validateRequestBody ajv fuel body op specDoc rc = some (Except.ok (vr, rc2)))
    (hvr : vr.valid = false) :
    ∃ l, vr.errors = some l ∧ l ≠ [] := by
  unfold validateRequestBody at h
  cases hrb : op.requestBodyJsonSchema with
  | none =>
      simp only [hrb] at h
      injection h with h2
      injection h2 with h3
      rw [congrArg ValidationResult.valid (congrArg Prod.fst h3).symm] at hvr
      exact Bool.noConfusion hvr
  | some inner =>
      cases inner with
      | none =>
          simp only [hrb] at h
          injection h with h2
          injection h2 with h3
          rw [congrArg ValidationResult.valid (congrArg Prod.fst h3).symm] at hvr
          exact Bool.noConfusion hvr
      | some sch =>
          simp only [hrb] at h
          cases hres : resolveSchemaF specDoc fuel sch rc with
          | none =>
              rw [hres] at h
              simp only [rbind] at h
              exact Option.noConfusion h
          | some r =>
              cases r with
              | error e =>
                  rw [hres] at h
                  simp only [rbind] at h
                  injection h with h2
                  exact Except.noConfusion h2
              | ok rr =>
                  rw [hres] at h
                  simp only [rbind] at h
                  cases hcl : cleanF fuel rr.1 with
                  | none =>
                      simp only [hcl] at h
                      exact Option.noConfusion h
                  | some clean =>
                      simp only [hcl] at h
                      cases hcompile : ajv.compile clean with
                      | none =>
                          simp only [hcompile] at h
                          injection h with h2
                          injection h2 with h3
                          rw [congrArg ValidationResult.valid
                            (congrArg Prod.fst h3).symm] at hvr
                          exact Bool.noConfusion hvr
                      | some vf =>
                          simp only [hcompile] at h
                          cases hv1 : (vf body).1 with
                          | true =>
                              simp only [hv1] at h
                              injection h with h2
                              injection h2 with h3
                              rw [congrArg ValidationResult.valid
                                (congrArg Prod.fst h3).symm] at hvr
                              exact Bool.noConfusion hvr
                          | false =>
                              cases hv2 : (vf body).2 with
                              | none =>
                                  simp only [hv1, hv2] at h
                                  injection h with h2
                                  injection h2 with h3
                                  rw [congrArg ValidationResult.valid
                                    (congrArg Prod.fst h3).symm] at hvr
                                  exact Bool.noConfusion hvr
                              | some l0 =>
                                  simp only [hv1, hv2] at h
                                  injection h with h2
                                  injection h2 with h3
                                  obtain ⟨l1, hl1, hne⟩ := hc clean vf hcompile body hv1
                                  rw [hv2] at hl1
                                  injection hl1 with hl2
                                  refine ⟨l0.map (fun e =>
                                    (if e.1 = "" then "/" else e.1,
                                     if e.2 = "" then "Validation error" else e.2)), ?_, ?_⟩
                                  · rw [congrArg ValidationResult.errors
                                      (congrArg Prod.fst h3).symm]
                                  · rw [← hl2] at hne
                                    intro hmap
                                    exact hne (List.map_eq_nil_iff.mp hmap)

/-- C9: for a write method with a non-empty body, (i) a failed
validation makes the handler respond 400 with the itemized, non-empty
`{field, message}` list and leaves the State Store untouched, and
(ii) when ajv cannot compile the cleaned schema the request is allowed
through unvalidated — in stateful mode a POST still creates and returns
201, not a 500. -/
theorem C9_validation_gate {σ : Type} (o : Oracle σ) (ajv : AjvModel)
    (hc : AjvContract ajv) (fuel : Nat) (specDoc : Json) (path : String)
    (m : Method) (op : Operation) (cfg : MockConfig) (req : Req) (st : StoreSt)
    (rc : RefCache) (s : σ)
    (hdet : op.xDet = false)
    (hm : m = Method.post ∨ m = Method.put ∨ m = Method.patch)
    (hb : hasBodyContent req.body = true)
    (resp : ResponseObj) (hresp : pickResponse m op.responses = some resp)
    (schemaOpt : Option Json) (rc1 : RefCache)
    (hrs : resolveRespSchema fuel specDoc resp rc = some (Except.ok (schemaOpt, rc1))) :
    (∀ errs rc2, validateRequestBody ajv fuel req.body op specDoc rc1
        = some (Except.ok ({ valid := false, errors := some errs }, rc2)) →
      handle o ajv fuel specDoc path m op cfg req st rc s
        = some { status := 400, body := some (validationFailedJson errs),
                 store := st, cache := rc2, rng := s }
      ∧ errs ≠ [])
    ∧ (∀ sch rsch rc2 csch,
      op.requestBodyJsonSchema = some (some sch) →
      resolveSchemaF specDoc fuel sch rc1 = some (Except.ok (rsch, rc2)) →
      cleanF fuel rsch = some csch →
      ajv.compile csch = none →
      validateRequestBody ajv fuel req.body op specDoc rc1
        = some (Except.ok ({ valid := true }, rc2))
      ∧ (cfg.stateful = true → m = Method.post →
          handle o ajv fuel specDoc path m op cfg req st rc s
            = some { status := 201,
                     body := some (Json.obj
                       (StateManager.create o path req.body st s).1),
                     store := (StateManager.create o path req.body st s).2.1,
                     cache := rc2,
                     rng := (StateManager.create o path req.body st s).2.2 })) := by
  have hstep1 : ∀ (vres : RRes (ValidationResult × RefCache)),
      validateRequestBody ajv fuel req.body op specDoc rc1 = vres →
      handle o ajv fuel specDoc path m op cfg req st rc s =
        (match vres with
         | none => none
         | some (Except.error _) => some (mk500 st rc1 s)
         | some (Except.ok (vr, rc2)) =>
             if vr.valid then
               (if cfg.stateful then
                  match statefulStep o fuel specDoc path m schemaOpt req st rc2 s with
                  | SfOut.respond out => some out
                  | SfOut.diverge => none
                  | SfOut.threw st2 rc3 s2 => some (mk500 st2 rc3 s2)
                  | SfOut.fallthrough =>
                      statelessStep o fuel specDoc m op schemaOpt req st rc2 s
                else statelessStep o fuel specDoc m op schemaOpt req st rc2 s)
             else
               some { status := 400,
                      body := some (validationFailedJson (vr.errors.getD [])),
                      store := st, cache := rc2, rng := s }) := by
    intro vres hval
    unfold handle
    simp only [hresp, hrs, hdet, Bool.false_eq_true, reduceIte]
    rw [if_pos ⟨hm, hb⟩, hval]
  constructor
  · intro errs rc2 hval
    refine ⟨?_, ?_⟩
    · rw [hstep1 _ hval]
      rfl
    · obtain ⟨l, hl, hne⟩ := validateRequestBody_invalid_nonempty ajv hc fuel req.body
        op specDoc rc1 { valid := false, errors := some errs } rc2 hval rfl
      injection hl with hl2
      rw [hl2]
      exact hne
  · intro sch rsch rc2 csch hrb hres hcl hcompile
    have hval : validateRequestBody ajv fuel req.body op specDoc rc1
        = some (Except.ok ({ valid := true }, rc2)) := by
      unfold validateRequestBody
      simp only [hrb]
      rw [hres]
      simp only [rbind, hcl, hcompile]
    refine ⟨hval, ?_⟩
    intro hsf hpost
    rw [hstep1 _ hval]
    subst hpost
    rw [hsf]
    simp only [if_true]
    unfold statefulStep
    simp only [reduceCtorEq, if_false, if_pos rfl]
    rfl

/-- An ajv model whose compiled validator always rejects with one raw
error carrying an empty `instancePath`. -/
def rejectAjv : AjvModel :=
  { compile := fun _ =>
      some (fun _ => (false, some [("", "must have required property email")])) }

theorem rejectAjv_contract : AjvContract rejectAjv := by
  intro sch vf h b hfalse
  injection h with h2
  rw [← h2]
  exact ⟨[("", "must have required property email")], rfl, by decide⟩

/-- An ajv model whose compilation always throws. -/
def failAjv : AjvModel := { compile := fun _ => none }

theorem failAjv_contract : AjvContract failAjv := by
  intro sch vf h
  exact Option.noConfusion h

def opC9 : Operation :=
  { responses := [("200", respW)],
    requestBodyJsonSchema := some (some (Json.obj [("type", Json.str "object")])) }

/-- Witness for C9 at a concrete stateful POST: a rejecting ajv yields
the 400 with mapped non-empty details and an untouched store; a
compilation-throwing ajv lets the same request through to a 201. -/
theorem C9_validation_gate_witness :
    handle constOracle rejectAjv 5 (Json.obj []) "/w9" Method.post opC9
      { stateful := true } { params := [], body := Json.obj [("name", Json.str "A")] }
      StateManager.clear [] 0
      = some { status := 400,
               body := some (validationFailedJson
                 [("/", "must have required property email")]),
               store := StateManager.clear, cache := [], rng := 0 }
    ∧ ([("/", "must have required property email")] : List (String × String)) ≠ []
    ∧ validateRequestBody failAjv 5 (Json.obj [("name", Json.str "A")]) opC9
        (Json.obj []) []
      = some (Except.ok ({ valid := true }, []))
    ∧ handle constOracle failAjv 5 (Json.obj []) "/w9" Method.post opC9
      { stateful := true } { params := [], body := Json.obj [("name", Json.str "A")] }
      StateManager.clear [] 0
      = some { status := 201,
               body := some (Json.obj
                 [("id", Json.str "uuid-0"), ("name", Json.str "A"),
                  ("createdAt", Json.str "2026-01-01T00:00:00.1")]),
               store := some [("/w9",
                 [[("id", Json.str "uuid-0"), ("name", Json.str "A"),
                   ("createdAt", Json.str "2026-01-01T00:00:00.1")]])],
               cache := [], rng := 2 } := by
  refine ⟨?_, ?_, ?_, ?_⟩
  · exact ((C9_validation_gate constOracle rejectAjv rejectAjv_contract 5 (Json.obj [])
      "/w9" Method.post opC9 { stateful := true }
      { params := [], body := Json.obj [("name", Json.str "A")] } StateManager.clear [] 0
      rfl (Or.inl rfl) rfl respW rfl none [] rfl).1
      [("/", "must have required property email")] [] rfl).1
  · exact ((C9_validation_gate constOracle rejectAjv rejectAjv_contract 5 (Json.obj [])
      "/w9" Method.post opC9 { stateful := true }
      { params := [], body := Json.obj [("name", Json.str "A")] } StateManager.clear [] 0
      rfl (Or.inl rfl) rfl respW rfl none [] rfl).1
      [("/", "must have required property email")] [] rfl).2
  · exact ((C9_validation_gate constOracle failAjv failAjv_contract 5 (Json.obj [])
      "/w9" Method.post opC9 { stateful := true }
      { params := [], body := Json.obj [("name", Json.str "A")] } StateManager.clear [] 0
      rfl (Or.inl rfl) rfl respW rfl none [] rfl).2
      (Json.obj [("type", Json.str "object")]) (Json.obj [("type", Json.str "object")])
      [] (Json.obj [("type", Json.str "object")]) rfl rfl rfl rfl).1
  · exact ((C9_validation_gate constOracle failAjv failAjv_contract 5 (Json.obj [])
      "/w9" Method.post opC9 { stateful := true }
      { params := [], body := Json.obj [("name", Json.str "A")] } StateManager.clear [] 0
      rfl (Or.inl rfl) rfl respW rfl none [] rfl).2
      (Json.obj [("type", Json.str "object")]) (Json.obj [("type", Json.str "object")])
      [] (Json.obj [("type", Json.str "object")]) rfl rfl rfl rfl).2 rfl rfl

/-! ### Claim C1: stateful round trip -/

def opDelW : Operation := { responses := [("200", { jsonSchema := none })] }

/-- C1: with stateful mode on, `POST /widgets {"name": "A"}` responds
201 with an item carrying the generated id and name "A"; a subsequent
`GET /widgets/{id}` with that id returns the same item (same name);
`DELETE /widgets/{id}` returns 204 and removes it; the final
`GET /widgets/{id}` is 404 — possible because `/widgets` and
`/widgets/{id}` normalize to the same collection key. -/
theorem C1_stateful_round_trip {σ : Type} (o : Oracle σ) (ajv : AjvModel)
    (fuel : Nat) (specDoc : Json) (s0 : σ) :
    normalizeKey "/widgets" = normalizeKey "/widgets/{id}"
    ∧ ∀ u t, u = (o.uuidV4 s0).1 → t = (o.nowIso (o.uuidV4 s0).2).1 →
      (handle o ajv fuel specDoc "/widgets" Method.post opPostW cfgStateful
          { params := [], body := Json.obj [("name", Json.str "A")] }
          StateManager.clear [] s0
        = some { status := 201,
                 body := some (Json.obj
                   [("id", Json.str u), ("name", Json.str "A"),
                    ("createdAt", Json.str t)]),
                 store := some [("/widgets",
                   [[("id", Json.str u), ("name", Json.str "A"),
                     ("createdAt", Json.str t)]])],
                 cache := [], rng := (o.nowIso (o.uuidV4 s0).2).2 })
      ∧ (u ≠ "" → ∀ (s1 : σ),
          (handle o ajv fuel specDoc "/widgets/{id}" Method.get opGetW cfgStateful
              { params := [("id", u)], body := Json.obj [] }
              (some [("/widgets",
                [[("id", Json.str u), ("name", Json.str "A"),
                  ("createdAt", Json.str t)]])]) [] s1
            = some { status := 200,
                     body := some (Json.obj
                       [("id", Json.str u), ("name", Json.str "A"),
                        ("createdAt", Json.str t)]),
                     store := some [("/widgets",
                       [[("id", Json.str u), ("name", Json.str "A"),
                         ("createdAt", Json.str t)]])],
                     cache := [], rng := s1 })
          ∧ (handle o ajv fuel specDoc "/widgets/{id}" Method.delete opDelW cfgStateful
              { params := [("id", u)], body := Json.obj [] }
              (some [("/widgets",
                [[("id", Json.str u), ("name", Json.str "A"),
                  ("createdAt", Json.str t)]])]) [] s1
            = some { status := 204, body := none,
                     store := some [("/widgets", [])], cache := [], rng := s1 })
          ∧ (handle o ajv fuel specDoc "/widgets/{id}" Method.get opGetW cfgStateful
              { params := [("id", u)], body := Json.obj [] }
              (some [("/widgets", [])]) [] s1
            = some { status := 404, body := some notFoundJson,
                     store := some [("/widgets", [])], cache := [], rng := s1 })) := by
  refine ⟨rfl, ?_⟩
  intro u t hu ht
  subst hu
  subst ht
  refine ⟨rfl, ?_⟩
  intro hne s1
  have hid : StateManager.itemIdIs
      [("id", Json.str (o.uuidV4 s0).1), ("name", Json.str "A"),
       ("createdAt", Json.str (o.nowIso (o.uuidV4 s0).2).1)] (o.uuidV4 s0).1 = true := by
    simp [StateManager.itemIdIs, Json.lookupF, Json.eqStr]
  have hkey : normalizeKey "/widgets/{id}" = "/widgets" := rfl
  have hinc : strIncludes "/widgets/{id}" "\x7b" = true := rfl
  have hlow : strIncludes (lowerStr "id") "id" = true := rfl
  refine ⟨?_, ?_, ?_⟩
  · simp [handle, pickResponse, successCode, lookupKey, opGetW, resolveRespSchema,
      cfgStateful, statefulStep, hinc, hlow, idValueOf, idParamOf,
      StateManager.getById, StateManager.getStore, hkey, hne, hid, List.find?]
  · simp [handle, pickResponse, successCode, lookupKey, opDelW, resolveRespSchema,
      cfgStateful, statefulStep, hinc, hlow, idValueOf, idParamOf,
      StateManager.deleteItem, StateManager.getStore, hkey, hne, hid,
      List.findIdx?, List.eraseIdx, setKey]
  · simp [handle, pickResponse, successCode, lookupKey, opGetW, resolveRespSchema,
      cfgStateful, statefulStep, hinc, hlow, idValueOf, idParamOf,
      StateManager.getById, StateManager.getStore, hkey, hne, List.find?]

/-- Witness for C1 with the concrete deterministic oracle. -/
theorem C1_stateful_round_trip_witness :
    (handle constOracle acceptAjv 10 (Json.obj []) "/widgets" Method.post opPostW
        cfgStateful { params := [], body := Json.obj [("name", Json.str "A")] }
        StateManager.clear [] 0
      = some { status := 201,
               body := some (Json.obj
                 [("id", Json.str "uuid-0"), ("name", Json.str "A"),
                  ("createdAt", Json.str "2026-01-01T00:00:00.1")]),
               store := some [("/widgets",
                 [[("id", Json.str "uuid-0"), ("name", Json.str "A"),
                   ("createdAt", Json.str "2026-01-01T00:00:00.1")]])],
               cache := [], rng := 2 })
    ∧ (handle constOracle acceptAjv 10 (Json.obj []) "/widgets/{id}" Method.get opGetW
        cfgStateful { params := [("id", "uuid-0")], body := Json.obj [] }
        (some [("/widgets",
          [[("id", Json.str "uuid-0"), ("name", Json.str "A"),
            ("createdAt", Json.str "2026-01-01T00:00:00.1")]])]) [] 2
      = some { status := 200,
               body := some (Json.obj
                 [("id", Json.str "uuid-0"), ("name", Json.str "A"),
                  ("createdAt", Json.str "2026-01-01T00:00:00.1")]),
               store := some [("/widgets",
                 [[("id", Json.str "uuid-0"), ("name", Json.str "A"),
                   ("createdAt", Json.str "2026-01-01T00:00:00.1")]])],
               cache := [], rng := 2 })
    ∧ (handle constOracle acceptAjv 10 (Json.obj []) "/widgets/{id}" Method.delete
        opDelW cfgStateful { params := [("id", "uuid-0")], body := Json.obj [] }
        (some [("/widgets",
          [[("id", Json.str "uuid-0"), ("name", Json.str "A"),
            ("createdAt", Json.str "2026-01-01T00:00:00.1")]])]) [] 2
      = some { status := 204, body := none, store := some [("/widgets", [])],
               cache := [], rng := 2 })
    ∧ (handle constOracle acceptAjv 10 (Json.obj []) "/widgets/{id}" Method.get opGetW
        cfgStateful { params := [("id", "uuid-0")], body := Json.obj [] }
        (some [("/widgets", [])]) [] 2
      = some { status := 404, body := some notFoundJson,
               store := some [("/widgets", [])], cache := [], rng := 2 }) := by
  have h := (C1_stateful_round_trip constOracle acceptAjv 10 (Json.obj []) 0).2
    "uuid-0" "2026-01-01T00:00:00.1" rfl rfl
  have h2 := h.2 (by decide) 2
  exact ⟨h.1, h2.1, h2.2.1, h2.2.2⟩

/-! ### Claim C5: depth guard, generation termination, cyclic schemas -/

/-- A direct self-reference: `User.friend.$ref = User`. -/
def cyclicRefSchema : Json := Json.obj [("$ref", Json.str "#/components/schemas/User")]

def userSchemaJson : Json :=
  Json.obj [("type", Json.str "object"),
            ("properties", Json.obj [("friend", cyclicRefSchema)])]

def cyclicSpecJson : Json :=
  Json.obj [("components", Json.obj [("schemas", Json.obj
    [("User", userSchemaJson)])])]

/-- Resolution of a schema terminates when some recursion depth
suffices. -/
def ResolutionTerminates (schema specDoc : Json) (rc : RefCache) : Prop :=
  ∃ fuel, resolveSchemaF specDoc fuel schema rc ≠ none

theorem cyclic_resolution_diverges :
    ∀ (fuel : Nat) (rc : RefCache),
      (rc = [] ∨ rc = [("#/components/schemas/User", some userSchemaJson)]) →
      resolveSchemaF cyclicSpecJson fuel cyclicRefSchema rc = none ∧
      resolveSchemaF cyclicSpecJson fuel userSchemaJson rc = none := by
  intro fuel
  induction fuel with
  | zero => intro rc _; exact ⟨rfl, rfl⟩
  | succ f ih =>
      intro rc hrc
      constructor
      · rcases hrc with h | h
        · subst h
          have hstep : resolveSchemaF cyclicSpecJson (f + 1) cyclicRefSchema [] =
              resolveSchemaF cyclicSpecJson f userSchemaJson
                [("#/components/schemas/User", some userSchemaJson)] := rfl
          rw [hstep]
          exact (ih _ (Or.inr rfl)).2
        · subst h
          have hstep : resolveSchemaF cyclicSpecJson (f + 1) cyclicRefSchema
              [("#/components/schemas/User", some userSchemaJson)] =
              resolveSchemaF cyclicSpecJson f userSchemaJson
                [("#/components/schemas/User", some userSchemaJson)] := rfl
          rw [hstep]
          exact (ih _ (Or.inr rfl)).2
      · have hfriend := (ih rc hrc).1
        have hprops : resolvePropsGo (resolveSchemaF cyclicSpecJson f)
            [("friend", cyclicRefSchema)] [] rc = none := by
          unfold resolvePropsGo
          rw [hfriend]
          rfl
        simp only [resolveSchemaF]
        simp [userSchemaJson, Json.get?, Json.lookupF, spreadFields, stepProps,
          Json.truthy, rbind, hprops]

/-- C5 counterexample: a schema with a direct self-reference does NOT
terminate when resolved — `resolveSchema` recurses for every recursion
depth (the JS original overflows the stack), so resolved-then-generated
output is never produced for it. -/
theorem C5_counterexample :
    ¬ ResolutionTerminates cyclicRefSchema cyclicSpecJson [] := by
  rintro ⟨fuel, hne⟩
  exact hne (cyclic_resolution_diverges fuel [] (Or.inl rfl)).1

theorem sizeOf_json_pos : ∀ j : Json, 0 < sizeOf j := by
  intro j
  cases j <;> simp_arith

theorem sizeOf_lookupF {fs : List (String × Json)} {k : String} {v : Json}
    (h : Json.lookupF fs k = some v) : sizeOf v < sizeOf fs := by
  induction fs with
  | nil => exact Option.noConfusion h
  | cons e rest ih =>
      rw [Json.lookupF] at h
      by_cases hk : e.1 = k
      · rw [if_pos hk] at h
        injection h with h2
        subst h2
        obtain ⟨a, b⟩ := e
        simp_arith
      · rw [if_neg hk] at h
        have h1 := ih h
        have h2 : sizeOf rest < sizeOf (e :: rest) := by simp_arith
        exact lt_trans h1 h2

theorem sizeOf_get? {j : Json} {k : String} {v : Json} (h : Json.get? j k = some v) :
    sizeOf v < sizeOf j := by
  cases j with
  | obj fs =>
      have h1 : Json.lookupF fs k = some v := h
      have h2 : sizeOf fs < sizeOf (Json.obj fs) := by simp_arith
      exact lt_trans (sizeOf_lookupF h1) h2
  | null => exact Option.noConfusion h
  | bool b => exact Option.noConfusion h
  | num q => exact Option.noConfusion h
  | str t => exact Option.noConfusion h
  | arr xs => exact Option.noConfusion h

theorem sizeOf_mem_list {xs : List Json} {v : Json} (h : v ∈ xs) :
    sizeOf v < sizeOf (Json.arr xs) := by
  have h1 := List.sizeOf_lt_of_mem h
  have h2 : sizeOf xs < sizeOf (Json.arr xs) := by simp_arith
  exact lt_trans h1 h2

theorem sizeOf_spreadFields {j : Json} {kv : String × Json}
    (h : kv ∈ spreadFields j) : sizeOf kv.2 < sizeOf j := by
  cases j with
  | obj fs =>
      have h1 := List.sizeOf_lt_of_mem h
      have h2 : sizeOf kv.2 < sizeOf kv := by
        obtain ⟨a, b⟩ := kv
        simp_arith
      have h3 : sizeOf fs < sizeOf (Json.obj fs) := by simp_arith
      exact lt_trans (lt_trans h2 h1) h3
  | arr xs =>
      simp only [spreadFields, List.mem_map] at h
      obtain ⟨iv, hiv, heq⟩ := h
      have hv : iv.2 = kv.2 := congrArg Prod.snd heq
      have hmem : iv.2 ∈ xs := by
        rw [← List.enum_map_snd xs]
        exact List.mem_map_of_mem Prod.snd hiv
      rw [← hv]
      exact sizeOf_mem_list hmem
  | null => simp [spreadFields] at h
  | bool b => simp [spreadFields] at h
  | num q => simp [spreadFields] at h
  | str t => simp [spreadFields] at h

theorem getD_mem_or {α : Type} :
    ∀ (l : List α) (n : Nat) (d : α), l.getD n d = d ∨ l.getD n d ∈ l := by
  intro l
  induction l with
  | nil => intro n d; left; rw [List.getD_nil]
  | cons x rest ih =>
      intro n d
      cases n with
      | zero => right; rw [List.getD_cons_zero]; exact List.mem_cons_self x rest
      | succ m =>
          rw [List.getD_cons_succ]
          rcases ih m d with h | h
          · exact Or.inl h
          · exact Or.inr (List.mem_cons_of_mem x h)

theorem jsPick_mem {σ α : Type} {o : Oracle σ} {xs : List α} {s : σ} {a : α} {s2 : σ}
    (h : jsPick o xs s = Except.ok (a, s2)) : a ∈ xs := by
  cases xs with
  | nil => exact Except.noConfusion h
  | cons x rest =>
      unfold jsPick at h
      injection h with h2
      have ha : (x :: rest).getD (o.fkPickIdx (x :: rest).length s).1 x = a :=
        congrArg Prod.fst h2
      rw [← ha]
      rcases getD_mem_or (x :: rest) (o.fkPickIdx (x :: rest).length s).1 x with h3 | h3
      · rw [h3]; exact List.mem_cons_self x rest
      · exact h3

theorem rbind_ne_none {α β : Type} {m : RRes α} {f : α → RRes β}
    (hm : m ≠ none) (hf : ∀ a, m = some (Except.ok a) → f a ≠ none) :
    rbind m f ≠ none := by
  cases m with
  | none => exact absurd rfl hm
  | some r =>
      cases r with
      | error e => simp [rbind]
      | ok a => exact hf a rfl

theorem genAllOf_ne_none {σ : Type} (o : Oracle σ)
    (g : Json → Ctx → σ → RRes (Json × σ)) (ctx : Ctx) :
    ∀ (subs : List Json) (merged : List (String × Json)) (s : σ),
      (∀ sub ∈ subs, ∀ c t, g sub c t ≠ none) →
      genAllOf o g ctx subs merged s ≠ none := by
  intro subs
  induction subs with
  | nil => intro merged s _; simp [genAllOf]
  | cons x rest ih =>
      intro merged s hg
      unfold genAllOf
      apply rbind_ne_none (hg x (List.mem_cons_self _ _) ctx s)
      intro a _
      exact ih _ _ (fun sub hs c t => hg sub (List.mem_cons_of_mem _ hs) c t)

theorem genRepeat_ne_none {σ : Type} (g : Json → Ctx → σ → RRes (Json × σ))
    (item : Json) (ctx : Ctx) (hg : ∀ c t, g item c t ≠ none) :
    ∀ (n i : Nat) (acc : List Json) (s : σ), genRepeat g item ctx n i acc s ≠ none := by
  intro n
  induction n with
  | zero => intro i acc s; simp [genRepeat]
  | succ n ih =>
      intro i acc s
      unfold genRepeat
      apply rbind_ne_none (hg _ s)
      intro a _
      exact ih _ _ _

theorem genProps_ne_none {σ : Type} (o : Oracle σ)
    (g : Json → Ctx → σ → RRes (Json × σ)) (required : List String) (ctx : Ctx) :
    ∀ (props : List (String × Json)) (acc : List (String × Json)) (s : σ),
      (∀ kv ∈ props, ∀ c t, g kv.2 c t ≠ none) →
      genProps o g required ctx props acc s ≠ none := by
  intro props
  induction props with
  | nil => intro acc s _; simp [genProps]
  | cons kv rest ih =>
      intro acc s hg
      obtain ⟨k, ps⟩ := kv
      unfold genProps
      split
      · apply rbind_ne_none (hg (k, ps) (List.mem_cons_self _ _) _ _)
        intro a _
        exact ih _ _ (fun kv2 hs c t => hg kv2 (List.mem_cons_of_mem _ hs) c t)
      · dsimp only
        split
        · apply rbind_ne_none (hg (k, ps) (List.mem_cons_self _ _) _ _)
          intro a _
          exact ih _ _ (fun kv2 hs c t => hg kv2 (List.mem_cons_of_mem _ hs) c t)
        · exact ih _ _ (fun kv2 hs c t => hg kv2 (List.mem_cons_of_mem _ hs) c t)

theorem generateArray_ne_none {σ : Type} (o : Oracle σ)
    (g : Json → Ctx → σ → RRes (Json × σ)) (schema : Json) (ctx : Ctx) (s : σ)
    (hg : ∀ iv, Json.get? schema "items" = some iv → ∀ c t, g iv c t ≠ none) :
    generateArray o g schema ctx s ≠ none := by
  by_cases hcmp : min ((ratFieldF schema "maxItems").getD 5) 100 <
      (ratFieldF schema "minItems").getD 1
  · simp [generateArray, hcmp]
  · cases hit : Json.get? schema "items" with
    | none => simp [generateArray, hcmp, hit]
    | some iv =>
        by_cases htr : iv.truthy = true
        · simp only [generateArray, if_neg hcmp, hit, htr, if_true]
          apply rbind_ne_none (genRepeat_ne_none g iv ctx (hg iv hit) _ _ _ _)
          intro a _
          simp
        · rw [Bool.not_eq_true] at htr
          simp [generateArray, hcmp, hit, htr]

theorem generateObject_ne_none {σ : Type} (o : Oracle σ)
    (g : Json → Ctx → σ → RRes (Json × σ)) (schema : Json) (ctx : Ctx) (s : σ)
    (hg : ∀ pv, Json.get? schema "properties" = some pv →
       ∀ kv ∈ spreadFields pv, ∀ c t, g kv.2 c t ≠ none) :
    generateObject o g schema ctx s ≠ none := by
  by_cases hd : ctx.depth > 10
  · simp [generateObject, hd]
  · cases hp : Json.get? schema "properties" with
    | none => simp [generateObject, hd, hp]
    | some pv =>
        by_cases htr : pv.truthy = true
        · simp only [generateObject, if_neg hd, hp, htr, if_true]
          apply rbind_ne_none
            (genProps_ne_none o g (requiredList schema) ctx _ _ _ (hg pv hp))
          intro a _
          simp
        · rw [Bool.not_eq_true] at htr
          simp [generateObject, hd, hp, htr]

theorem generateNumber_ne_none {σ : Type} (o : Oracle σ) (schema : Json) (s : σ) :
    generateNumber o schema s ≠ none := by
  unfold generateNumber
  dsimp only
  by_cases h1 : (ratFieldF schema "maximum").getD 1000 < (ratFieldF schema "minimum").getD 0
  · rw [if_pos h1]; simp
  · rw [if_neg h1]
    by_cases h2 : strFieldF schema "type" = some "integer"
    · rw [if_pos h2]; simp
    · rw [if_neg h2]; simp

theorem genStep_ne_none {σ : Type} (o : Oracle σ)
    (g : Json → Ctx → σ → RRes (Json × σ)) (schema : Json) (ctx : Ctx) (s : σ)
    (hg : ∀ sub, sizeOf sub < sizeOf schema → ∀ c t, g sub c t ≠ none) :
    genStep o g schema ctx s ≠ none := by
  have htype : ∀ s1, stageType o g schema ctx s1 ≠ none := by
    intro s1
    unfold stageType
    split
    · simp
    · exact generateNumber_ne_none o schema s1
    · exact generateNumber_ne_none o schema s1
    · simp
    · exact generateArray_ne_none o g schema ctx s1
        (fun iv hiv c t => hg iv (sizeOf_get? hiv) c t)
    · exact generateObject_ne_none o g schema ctx s1
        (fun pv hpv kv hkv c t =>
          hg kv.2 (lt_trans (sizeOf_spreadFields hkv) (sizeOf_get? hpv)) c t)
    · simp
  have hanyOf : ∀ s1, stageAnyOf o g schema ctx s1 ≠ none := by
    intro s1
    unfold stageAnyOf
    split
    · rename_i subs hsubs
      split
      · simp
      · rename_i pick s2 hpick
        exact hg pick (lt_trans (sizeOf_mem_list (jsPick_mem hpick)) (sizeOf_get? hsubs))
          ctx s2
    · rename_i v hv hnotarr
      split
      · simp
      · exact htype s1
    · exact htype s1
  have honeOf : ∀ s1, stageOneOf o g schema ctx s1 ≠ none := by
    intro s1
    unfold stageOneOf
    split
    · rename_i subs hsubs
      split
      · simp
      · rename_i pick s2 hpick
        exact hg pick (lt_trans (sizeOf_mem_list (jsPick_mem hpick)) (sizeOf_get? hsubs))
          ctx s2
    · rename_i v hv hnotarr
      split
      · simp
      · exact hanyOf s1
    · exact hanyOf s1
  have hallOf : ∀ s1, stageAllOf o g schema ctx s1 ≠ none := by
    intro s1
    unfold stageAllOf
    split
    · rename_i subs hsubs
      apply rbind_ne_none
        (genAllOf_ne_none o g ctx subs [] s1
          (fun sub hs c t =>
            hg sub (lt_trans (sizeOf_mem_list hs) (sizeOf_get? hsubs)) c t))
      intro a _
      dsimp only
      split
      · simp
      · cases subs with
        | nil => simp
        | cons s0 rest =>
            exact hg s0 (lt_trans (sizeOf_mem_list (List.mem_cons_self _ _))
              (sizeOf_get? hsubs)) ctx a.2
    · rename_i v hv hnotarr
      split
      · simp
      · exact honeOf s1
    · exact honeOf s1
  have henum : ∀ s1, stageEnum o g schema ctx s1 ≠ none := by
    intro s1
    unfold stageEnum
    split
    · split <;> simp
    · exact hallOf s1
  have hnullable : ∀ s1, stageNullable o g schema ctx s1 ≠ none := by
    intro s1
    unfold stageNullable
    split
    · split
      · dsimp only
        split
        · simp
        · exact henum _
      · exact henum s1
    · exact henum s1
  unfold genStep
  split
  · simp
  · split
    · split
      · simp
      · exact hnullable s
    · exact hnullable s

theorem generateFromSchema_fuel_sufficient {σ : Type} (o : Oracle σ) :
    ∀ (fuel : Nat) (schema : Json) (ctx : Ctx) (s : σ),
      sizeOf schema ≤ fuel → generateFromSchema o fuel schema ctx s ≠ none := by
  intro fuel
  induction fuel with
  | zero =>
      intro schema ctx s h
      have := sizeOf_json_pos schema
      omega
  | succ f ih =>
      intro schema ctx s hsz
      show genStep o (fun j c t => generateFromSchema o f j c t) schema ctx s ≠ none
      apply genStep_ne_none
      intro sub hlt c t
      exact ih sub c t (by omega)

/-- C5: generation is bounded, in two parts.  (i) Termination with
output: for every schema, any fuel of at least the schema's size makes
`generateFromSchema` return `some` answer — the recursion only ever
descends into strictly smaller sub-schemas (object properties, array
items, allOf/oneOf/anyOf members), so a finite (already-resolved) schema
always terminates; divergence can only enter through resolution of a
cyclic `$ref` (see the C5 counterexample).  (ii) The depth guard: when
the dispatch falls through to the `object` branch (no example, `$ref`,
nullable, enum, allOf, oneOf or anyOf key) and the context depth exceeds
10, generation does not recurse into the properties at all but returns
the single-field object `{id: fresh uuid}` immediately. -/
theorem C5_generation_bounded {σ : Type} (o : Oracle σ) :
    (∀ (fuel : Nat) (schema : Json) (ctx : Ctx) (s : σ),
        sizeOf schema ≤ fuel → generateFromSchema o fuel schema ctx s ≠ none)
    ∧ (∀ (fuel : Nat) (schema : Json) (ctx : Ctx) (s : σ),
        Json.get? schema "example" = none →
        Json.get? schema "$ref" = none →
        Json.get? schema "nullable" = none →
        Json.get? schema "enum" = none →
        Json.get? schema "allOf" = none →
        Json.get? schema "oneOf" = none →
        Json.get? schema "anyOf" = none →
        strFieldF schema "type" = some "object" →
        ctx.depth > 10 →
        generateFromSchema o (fuel + 1) schema ctx s =
          some (Except.ok (Json.obj [("id", Json.str (o.fkStr StrKind.uuid s).1)],
            (o.fkStr StrKind.uuid s).2))) := by
  constructor
  · exact generateFromSchema_fuel_sufficient o
  · intro fuel schema ctx s hex href hnul hen hall hone hany htyp hd
    show genStep o (fun j c t => generateFromSchema o fuel j c t) schema ctx s = _
    unfold genStep stageNullable stageEnum stageAllOf stageOneOf stageAnyOf stageType
      generateObject
    simp only [hex, href, hnul, hen, hall, hone, hany, htyp]
    rw [if_pos hd]

theorem C5_generation_bounded_witness :
    (generateFromSchema constOracle 2 (Json.obj []) ⟨[], 0, none, ""⟩ 0 ≠ none)
    ∧ generateFromSchema constOracle 1
        (Json.obj [("type", Json.str "object")]) ⟨[], 11, none, ""⟩ 0
      = some (Except.ok
          (Json.obj [("id", Json.str (constOracle.fkStr StrKind.uuid 0).1)],
           (constOracle.fkStr StrKind.uuid 0).2)) :=
  ⟨(C5_generation_bounded constOracle).1 2 (Json.obj []) ⟨[], 0, none, ""⟩ 0 (by decide),
   (C5_generation_bounded constOracle).2 0 (Json.obj [("type", Json.str "object")])
     ⟨[], 11, none, ""⟩ 0 rfl rfl rfl rfl rfl rfl rfl rfl (by decide)⟩


